import Mathlib

/-!
# Configuration resolution, secret provisioning and lifecycle of the memos server

A shallow embedding of `internal/config/config.go` and `server/server.go`.
Go strings are Lean strings, slices are lists, a nil-able pointer is an `Option`,
an `error` result is an `Option` or an `Except`, and code with effects returns the
list of effects it performed, in program order.
-/

namespace Memos

/-! ## `internal/config`: data model -/

/-- Template represents a memo template. -/
structure Template where
  ID : String
  Name : String
  Description : String
  Content : String
  Icon : String
  deriving DecidableEq, Repr

/-- AIPromptConfig represents AI prompt configuration. -/
structure AIPromptConfig where
  TagGenerationPrompt : String
  AssistantSuggestionsPrompt : String
  AssistantRewritePrompt : String
  AssistantEnhanceSlightPrompt : String
  AssistantEnhanceElaboratePrompt : String
  deriving DecidableEq, Repr

/-- Config represents the full configuration. -/
structure Config where
  Templates : List Template
  AIPrompts : AIPromptConfig
  deriving DecidableEq, Repr

/-- GetDefaultConfig returns the default configuration (hardcoded defaults). -/
def GetDefaultConfig : Config :=
  { Templates := [
    { ID := "daily-notes",
      Name := "Daily Notes",
      Description := "Template for daily journaling and notes",
      Content := "# \x7b\x7bDATE\x7d\x7d\n\n## Morning\n- \n\n## Afternoon\n- \n\n## Evening\n- \n\n## Notes\n",
      Icon := "" },
    { ID := "meeting-notes",
      Name := "Meeting Notes",
      Description := "Template for meeting notes and action items",
      Content := "# Meeting: [Topic]\n\n**Date:** \x7b\x7bDATE\x7d\x7d\n**Time:** \n**Attendees:** \n\n## Agenda\n1. \n2. \n3. \n\n## Discussion\n- \n\n## Action Items\n- [ ] \n- [ ] \n- [ ] \n\n## Next Steps\n",
      Icon := "" },
    { ID := "food-recipe",
      Name := "Food Recipe",
      Description := "Template for recipes and cooking notes",
      Content := "# [Recipe Name]\n\n**Prep Time:** \n**Cook Time:** \n**Servings:** \n\n## Ingredients\n- \n- \n- \n\n## Instructions\n1. \n2. \n3. \n\n## Notes\n",
      Icon := "" },
    { ID := "project-plan",
      Name := "Project Plan",
      Description := "Template for project planning and tracking",
      Content := "# [Project Name]\n\n**Status:** \n**Start Date:** \n**Target Date:** \n\n## Overview\n \n\n## Goals\n- \n- \n- \n\n## Tasks\n- [ ] \n- [ ] \n- [ ] \n\n## Resources\n- \n\n## Notes\n",
      Icon := "" },
    { ID := "book-notes",
      Name := "Book Notes",
      Description := "Template for book reading notes and summaries",
      Content := "# [Book Title]\n\n**Author:** \n**Date Started:** \n**Date Finished:** \n**Rating:** ⭐⭐⭐⭐⭐\n\n## Summary\n \n\n## Key Takeaways\n- \n- \n- \n\n## Quotes\n> \n\n## Notes\n",
      Icon := "" },
    { ID := "idea-brainstorm",
      Name := "Idea Brainstorm",
      Description := "Template for brainstorming and idea generation",
      Content := "# [Topic/Idea]\n\n**Date:** \x7b\x7bDATE\x7d\x7d\n\n## Core Concept\n \n\n## Key Points\n- \n- \n- \n\n## Pros\n- \n- \n\n## Cons\n- \n- \n\n## Next Steps\n- [ ] \n- [ ] \n",
      Icon := "" } ],
    AIPrompts :=
    { TagGenerationPrompt :=
        "Analyze the following memo content and generate exactly 3 relevant tags. Tags should be:\n1. Short (1-3 words each)\n2. Descriptive and relevant to the content\n3. Lowercase with no special characters (use underscores for spaces if needed)\n4. Focused on the main topics/themes\n5. **CRITICALLY IMPORTANT**: Reuse existing tags when possible to minimize tag proliferation and maintain consistency\n\n\x7b\x7bEXISTING_TAGS\x7d\x7d\n\n**Instructions:**\n- FIRST check if any existing tags match the content - REUSE them if they fit\n- Only create NEW tags if no existing tags are appropriate\n- Prioritize existing tags over creating new ones\n- This helps keep the tag list manageable and searchable\n\nContent:\n\x7b\x7bCONTENT\x7d\x7d\n\nReturn only the 3 tags, one per line, without numbering, bullets, or prefixes:",
      AssistantSuggestionsPrompt :=
        "You are an AI writing assistant helping to enhance a note/memo. Analyze the context and provide 3 contextual suggestions to continue or enhance the writing at the current cursor position.\n\nFull Context:\n\x7b\x7bFULL_CONTEXT\x7d\x7d\n\nCurrent Position Context:\n\x7b\x7bCONTEXT_BEFORE\x7d\x7d[CURSOR]\x7b\x7bCONTEXT_AFTER\x7d\x7d\n\nCurrent line being typed: \"\x7b\x7bCURRENT_LINE\x7d\x7d\"\n\nProvide 3 suggestions that:\n1. Are contextually relevant to the existing content\n2. Enhance or continue the current thought/idea\n3. Are concise (one sentence each)\n4. Flow naturally from what\x27s already written\n\nReturn only the suggestions, one per line, without numbering, bullets, or prefixes:",
      AssistantRewritePrompt :=
        "Rewrite the following note/memo completely. You have full flexibility to:\n- Restructure the content\n- Improve clarity and flow\n- Enhance the writing style\n- Reorganize ideas\n- Make it more engaging and professional\n\nOriginal content:\n\x7b\x7bCONTENT\x7d\x7d\n\nProvide a completely rewritten version that improves upon the original:",
      AssistantEnhanceSlightPrompt :=
        "Enhance the following note/memo with SLIGHT changes only. You must:\n- Keep ALL the original ideas and content\n- Make MINOR improvements to grammar, clarity, and flow\n- Fix typos and awkward phrasing\n- Do NOT add any new ideas, topics, or content\n- Do NOT expand on existing points\n- Only refine what\x27s already there\n\nContent:\n\x7b\x7bCONTENT\x7d\x7d\n\nProvide the slightly enhanced version (same length, same ideas, just refined):",
      AssistantEnhanceElaboratePrompt :=
        "Enhance the following note/memo to make it MORE ELABORATE, but CRITICALLY: you must NOT add any new ideas, topics, or content beyond what the user has written. You can:\n- Expand on existing points with more detail\n- Add examples, explanations, or context for existing ideas\n- Improve structure and flow\n- Make it more comprehensive and detailed\n- Use better vocabulary and phrasing\n\nBUT you must NOT:\n- Introduce new topics or ideas\n- Add information not implied in the original content\n- Go beyond what the user has written\n\nContent:\n\x7b\x7bCONTENT\x7d\x7d\n\nProvide the more elaborate version (expanding only on existing content, no new ideas):" } }

/-! ## `internal/config`: loading -/

/-- What `os.Stat` and `os.ReadFile` find at `filepath.Join(dataDir, "config.json")`. -/
inductive FileState where
  | notExist
  | unreadable (cause : String)
  | readable (data : String)
  deriving DecidableEq, Repr

/-- The two wrapped errors `LoadConfig` can return. -/
inductive LoadError where
  | read (cause : String)
  | parse (cause : String)
  deriving DecidableEq, Repr

/-- The world `LoadConfig` runs in: the state of `config.json` under each data
directory, and `json.Unmarshal` into a zero-valued `Config` (an absent or null
field stays at its zero value: the empty list, the empty string). -/
structure ConfigEnv where
  file : String → FileState
  unmarshal : String → Except String Config

/-- LoadConfig loads configuration from a JSON file in the data directory and
falls back to defaults if the file does not exist. -/
def LoadConfig (env : ConfigEnv) (dataDir : String) : Except LoadError Config :=
  match env.file dataDir with
  | .notExist => .ok GetDefaultConfig
  | .unreadable cause => .error (.read cause)
  | .readable data =>
    match env.unmarshal data with
    | .error cause => .error (.parse cause)
    | .ok config =>
      let defaultConfig := GetDefaultConfig
      let config : Config :=
        if config.Templates.length = 0 then
          { config with Templates := defaultConfig.Templates }
        else config
      let config : Config :=
        if config.AIPrompts.TagGenerationPrompt = "" then
          { config with AIPrompts :=
              { config.AIPrompts with
                TagGenerationPrompt := defaultConfig.AIPrompts.TagGenerationPrompt } }
        else config
      let config : Config :=
        if config.AIPrompts.AssistantSuggestionsPrompt = "" then
          { config with AIPrompts :=
              { config.AIPrompts with
                AssistantSuggestionsPrompt := defaultConfig.AIPrompts.AssistantSuggestionsPrompt } }
        else config
      let config : Config :=
        if config.AIPrompts.AssistantRewritePrompt = "" then
          { config with AIPrompts :=
              { config.AIPrompts with
                AssistantRewritePrompt := defaultConfig.AIPrompts.AssistantRewritePrompt } }
        else config
      let config : Config :=
        if config.AIPrompts.AssistantEnhanceSlightPrompt = "" then
          { config with AIPrompts :=
              { config.AIPrompts with
                AssistantEnhanceSlightPrompt :=
                  defaultConfig.AIPrompts.AssistantEnhanceSlightPrompt } }
        else config
      let config : Config :=
        if config.AIPrompts.AssistantEnhanceElaboratePrompt = "" then
          { config with AIPrompts :=
              { config.AIPrompts with
                AssistantEnhanceElaboratePrompt :=
                  defaultConfig.AIPrompts.AssistantEnhanceElaboratePrompt } }
        else config
      .ok config

/-! ## `internal/config`: validation -/

/-- The body of the `for _, template := range config.Templates` loop of
`ValidateConfig`; `templateIDs` is the `map[string]bool` of IDs seen so far
(indexing a Go map at a missing key yields `false`). -/
def ValidateConfig.loop (templateIDs : String → Bool) : List Template → Option String
  | [] => none
  | template :: rest =>
    if template.ID = "" then
      some "template ID cannot be empty"
    else if template.Name = "" then
      some ("template name cannot be empty for ID: " ++ template.ID)
    else if templateIDs template.ID then
      some ("duplicate template ID: " ++ template.ID)
    else
      ValidateConfig.loop (fun k => if k = template.ID then true else templateIDs k) rest

/-- ValidateConfig validates the configuration; `none` is Go's nil error and a
`none` argument is the nil pointer. -/
def ValidateConfig (config : Option Config) : Option String :=
  match config with
  | none => some "config is nil"
  | some config => ValidateConfig.loop (fun _ => false) config.Templates

/-! ## Go standard library pieces used by the templates handler -/

namespace strings

/-- The scan of `strings.Replace` for a non-empty `old`: `skip` counts the
characters of the current match still to be stepped over; a match is taken at the
leftmost position and the scan resumes right after it. -/
def ReplaceAll.go (old new : List Char) : Nat → List Char → List Char
  | _, [] => []
  | skip + 1, _ :: cs => ReplaceAll.go old new skip cs
  | 0, c :: cs =>
    if old.isPrefixOf (c :: cs) then new ++ ReplaceAll.go old new (old.length - 1) cs
    else c :: ReplaceAll.go old new 0 cs

/-- Go's `strings.ReplaceAll(s, old, new)`: every non-overlapping instance of
`old` replaced by `new`; an empty `old` matches at the beginning of the string and
after each character. Go matches bytes; on UTF-8 text that is matching characters. -/
def ReplaceAll (s old new : String) : String :=
  if old = new then s
  else if old.data = [] then
    String.mk (new.data ++ (s.data.map (fun c => c :: new.data)).flatten)
  else String.mk (ReplaceAll.go old.data new.data 0 s.data)

/-- Go's `strings.Contains(s, substr)`. -/
def Contains (s substr : String) : Prop := substr.data <:+: s.data

instance (s substr : String) : Decidable (Contains s substr) :=
  inferInstanceAs (Decidable (substr.data <:+: s.data))

end strings

namespace time

/-- Go's `time.Weekday`. -/
inductive Weekday where
  | Sunday | Monday | Tuesday | Wednesday | Thursday | Friday | Saturday
  deriving DecidableEq, Repr

/-- Go's `time.Month`. -/
inductive Month where
  | January | February | March | April | May | June
  | July | August | September | October | November | December
  deriving DecidableEq, Repr

/-- The English name of the day, `Weekday.String`. -/
def Weekday.String : Weekday → String
  | .Sunday => "Sunday"
  | .Monday => "Monday"
  | .Tuesday => "Tuesday"
  | .Wednesday => "Wednesday"
  | .Thursday => "Thursday"
  | .Friday => "Friday"
  | .Saturday => "Saturday"

/-- The English name of the month, `Month.String`. -/
def Month.String : Month → String
  | .January => "January"
  | .February => "February"
  | .March => "March"
  | .April => "April"
  | .May => "May"
  | .June => "June"
  | .July => "July"
  | .August => "August"
  | .September => "September"
  | .October => "October"
  | .November => "November"
  | .December => "December"

/-- The calendar fields of a `time.Time` that the layout of the handler prints. -/
structure Time where
  Weekday : Weekday
  Month : Month
  Day : Nat
  Year : Int
  deriving DecidableEq, Repr

/-- Go's `appendInt`: the decimal text of `x`, zero-padded to `width` digits,
after a minus sign when `x` is negative. -/
def appendInt (x : Int) (width : Nat) : String :=
  let digits := Nat.repr x.natAbs
  (if x < 0 then "-" else "") ++ String.mk (List.replicate (width - digits.length) '0') ++ digits

/-- The result of `t.Format("Monday, January 2, 2006")`: full weekday name, full
month name, day of the month without padding, four-digit year. -/
def Time.FormatLongDate (t : Time) : String :=
  t.Weekday.String ++ ", " ++ t.Month.String ++ " " ++ appendInt t.Day 0 ++ ", " ++
    appendInt t.Year 4

/-- Not a brace. -/
def NoBrace (c : Char) : Prop := c ≠ '\x7b' ∧ c ≠ '\x7d'

instance (c : Char) : Decidable (NoBrace c) := inferInstanceAs (Decidable (_ ∧ _))

end time

/-! ## `server`: data model -/

/-- The fields of `profile.Profile` that `server.go` reads. -/
structure Profile where
  Mode : String
  Addr : String
  Port : Int
  UNIXSock : String
  Data : String
  deriving DecidableEq, Repr

/-- The message `storepb.InstanceBasicSetting`: the field `SecretKey` that
`server.go` reads and writes, and the remaining fields of the message. -/
structure InstanceBasicSetting (ρ : Type) where
  SecretKey : String
  rest : ρ
  deriving DecidableEq, Repr

/-- The enum `storepb.InstanceSettingKey`. -/
inductive InstanceSettingKey where
  | BASIC
  | other (tag : Nat)
  deriving DecidableEq, Repr

/-- The oneof `Value` of `storepb.InstanceSetting`. -/
inductive InstanceSettingValue (ρ : Type) where
  | BasicSetting (basicSetting : InstanceBasicSetting ρ)
  | other
  deriving DecidableEq, Repr

/-- The message `storepb.InstanceSetting`. -/
structure InstanceSetting (ρ : Type) where
  Key : InstanceSettingKey
  Value : InstanceSettingValue ρ
  deriving DecidableEq, Repr

/-- The generated getter: the basic setting when `Value` holds one, else nil. -/
def InstanceSetting.GetBasicSetting {ρ : Type} (x : InstanceSetting ρ) :
    Option (InstanceBasicSetting ρ) :=
  match x.Value with
  | .BasicSetting b => some b
  | .other => none

/-- The two methods of `store.Store` that secret provisioning calls, as functions
of the store state `σ`: each returns its Go result and the state it leaves. A
successful `GetInstanceBasicSetting` returns a non-nil message. -/
structure Store (σ ρ : Type) where
  GetInstanceBasicSetting : σ → Except String (InstanceBasicSetting ρ) × σ
  UpsertInstanceSetting : InstanceSetting ρ → σ → Except String (InstanceSetting ρ) × σ

/-- A `context.CancelFunc`, identified by the context it cancels. -/
abbrev CancelFunc := Nat

/-- Levels of `log/slog` used in `server.go`. -/
inductive LogLevel where
  | info | warn | error
  deriving DecidableEq, Repr

/-- The effects of the server code on its collaborators, one constructor per
call site of `server.go`. -/
inductive Effect where
  | log (level : LogLevel) (msg : String)
  | storeGet
  | storeUpsert (key : InstanceSettingKey) (secretKey : String)
  | storeClose
  | listen (network address : String)
  | goEchoStart (address : String)
  | echoShutdown
  | withTimeout (seconds : Nat)
  | timeoutCancel
  | withCancel (cancel : CancelFunc)
  | cancel (cancelFunc : CancelFunc)
  | newRunner
  | runOnce
  | goRun (cancel : CancelFunc)
  deriving DecidableEq, Repr

/-- The outcome of a Go call that can return a value, return an error, or panic. -/
inductive Result (α : Type) where
  | ok (value : α)
  | error (msg : String)
  | panic (msg : String)
  deriving DecidableEq, Repr

/-- The struct `Server`; the store and the echo server are handles to
collaborators and live outside the value. -/
structure Server where
  Secret : String
  Profile : Profile
  Config : Config
  runnerCancelFuncs : List (Option CancelFunc)
  deriving DecidableEq, Repr

/-- Everything `NewServer` reads from outside: the configuration file world, the
store, the value `uuid.NewString()` returns, and the error (or nil) of
`apiV1Service.RegisterGateway`. -/
structure ServerEnv (σ ρ : Type) where
  config : ConfigEnv
  store : Store σ ρ
  newUUID : String
  registerGateway : Option String

/-! ## `server`: secret provisioning and construction -/

/-- The method `getOrUpsertInstanceBasicSetting`: the returned setting (nil when
the upserted setting holds no basic setting), the store state, the store calls. -/
def getOrUpsertInstanceBasicSetting {σ ρ : Type} (store : Store σ ρ) (newUUID : String)
    (st : σ) : Except String (Option (InstanceBasicSetting ρ)) × σ × List Effect :=
  match store.GetInstanceBasicSetting st with
  | (.error err, st) =>
    (.error ("failed to get instance basic setting: " ++ err), st, [.storeGet])
  | (.ok instanceBasicSetting, st) =>
    let modified := false
    let (instanceBasicSetting, modified) :=
      if instanceBasicSetting.SecretKey = "" then
        ({ instanceBasicSetting with SecretKey := newUUID }, true)
      else (instanceBasicSetting, modified)
    if modified then
      match store.UpsertInstanceSetting
          { Key := .BASIC, Value := .BasicSetting instanceBasicSetting } st with
      | (.error err, st) =>
        (.error ("failed to upsert instance setting: " ++ err), st,
          [.storeGet, .storeUpsert .BASIC instanceBasicSetting.SecretKey])
      | (.ok instanceSetting, st) =>
        (.ok instanceSetting.GetBasicSetting, st,
          [.storeGet, .storeUpsert .BASIC instanceBasicSetting.SecretKey])
    else
      (.ok (some instanceBasicSetting), st, [.storeGet])

/-- The function `NewServer`, up to the value it returns: configuration
resolution, secret provisioning, and the gateway registration that can still fail.
Route registration in between has no outcome the result depends on. -/
def NewServer {σ ρ : Type} (env : ServerEnv σ ρ) (profile : Profile) (st : σ) :
    Result Server × σ × List Effect :=
  let (cfg, log1) : Config × List Effect :=
    match LoadConfig env.config profile.Data with
    | .error _ => (GetDefaultConfig, [.log .warn "Failed to load config file, using defaults"])
    | .ok cfg => (cfg, [])
  let (cfg, log2) : Config × List Effect :=
    match ValidateConfig (some cfg) with
    | some _ => (GetDefaultConfig, [.log .warn "Config validation failed, using defaults"])
    | none => (cfg, [])
  match getOrUpsertInstanceBasicSetting env.store env.newUUID st with
  | (.error err, st, calls) =>
    (.error ("failed to get instance basic setting: " ++ err), st, log1 ++ log2 ++ calls)
  | (.ok instanceBasicSetting, st, calls) =>
    let secret : Result String :=
      if profile.Mode = "prod" then
        match instanceBasicSetting with
        | some b => .ok b.SecretKey
        | none => .panic "invalid memory address or nil pointer dereference"
      else .ok "usememos"
    match secret with
    | .panic msg => (.panic msg, st, log1 ++ log2 ++ calls)
    | .error msg => (.error msg, st, log1 ++ log2 ++ calls)
    | .ok secret =>
      match env.registerGateway with
      | some err => (.error ("failed to register gRPC gateway: " ++ err), st, log1 ++ log2 ++ calls)
      | none =>
        (.ok { Secret := secret, Profile := profile, Config := cfg, runnerCancelFuncs := [] },
          st, log1 ++ log2 ++ calls)

/-- The handler of `GET /api/templates`: a copy of every stored template with the
date placeholder of its content replaced by the current date. -/
def templatesHandler (s : Server) (now : time.Time) : List Template :=
  let currentDate := now.FormatLongDate
  s.Config.Templates.map fun template =>
    { template with
      Content := strings.ReplaceAll template.Content "\x7b\x7bDATE\x7d\x7d" currentDate }

/-! ## `server`: startup and shutdown -/

/-- The method `StartBackgroundRunners`. -/
def Server.StartBackgroundRunners (s : Server) (s3Cancel : CancelFunc) : Server × List Effect :=
  ({ s with runnerCancelFuncs := s.runnerCancelFuncs ++ [some s3Cancel] },
    [.withCancel s3Cancel, .newRunner, .runOnce, .goRun s3Cancel,
      .log .info "background runners started"])

/-- The method `Start`; `listenErr` is the error (or nil) of `net.Listen` and
`s3Cancel` the cancel function `context.WithCancel` hands out. -/
def Server.Start (s : Server) (listenErr : Option String) (s3Cancel : CancelFunc) :
    Option String × Server × List Effect :=
  let (address, network) : String × String :=
    if s.Profile.UNIXSock.length = 0 then
      (s.Profile.Addr ++ ":" ++ toString s.Profile.Port, "tcp")
    else (s.Profile.UNIXSock, "unix")
  match listenErr with
  | some err => (some ("failed to listen: " ++ err), s, [.listen network address])
  | none =>
    let (s, started) := s.StartBackgroundRunners s3Cancel
    (none, s, [.listen network address, .goEchoStart address] ++ started)

/-- The loop of `Shutdown` over `s.runnerCancelFuncs`, skipping nil entries. -/
def Server.Shutdown.cancelAll : List (Option CancelFunc) → List Effect
  | [] => []
  | none :: rest => Server.Shutdown.cancelAll rest
  | some cancelFunc :: rest => .cancel cancelFunc :: Server.Shutdown.cancelAll rest

/-- The method `Shutdown`; `echoErr` and `closeErr` are the errors (or nil) of
`s.echoServer.Shutdown` and `s.Store.Close`. -/
def Server.Shutdown (s : Server) (echoErr closeErr : Option String) : List Effect :=
  [.withTimeout 10, .log .info "server shutting down"] ++
  Server.Shutdown.cancelAll s.runnerCancelFuncs ++
  [.echoShutdown] ++
  (match echoErr with
    | some _ => [.log .error "failed to shutdown server"]
    | none => []) ++
  [.storeClose] ++
  (match closeErr with
    | some _ => [.log .error "failed to close database"]
    | none => []) ++
  [.log .info "memos stopped properly", .timeoutCancel]

/-- The three kinds of step of a shutdown: cancelling a runner, shutting the
serving layer down, closing the store. Logging and the timeout context of the call
are not steps. -/
def Effect.isShutdownStep : Effect → Bool
  | .cancel _ => true
  | .echoShutdown => true
  | .storeClose => true
  | _ => false

/-- In the trace `effects`, the first `a` comes before the first `b`, and both
occur. -/
def OccursBefore (a b : Effect) (effects : List Effect) : Prop :=
  a ∈ effects ∧ b ∈ effects ∧ effects.indexOf a < effects.indexOf b

instance (a b : Effect) (effects : List Effect) : Decidable (OccursBefore a b effects) :=
  inferInstanceAs (Decidable (_ ∧ _ ∧ _))

/-! ## Sample inputs -/

/-- A configuration world for examples: `config.json` holds `json` under every
data directory and parses to `doc`. -/
def ConfigEnv.ofDocument (json : String) (doc : Config) : ConfigEnv :=
  { file := fun _ => .readable json,
    unmarshal := fun data => if data = json then .ok doc else .error "unexpected end of JSON input" }

/-- The document that sets only the tag generation prompt. -/
def documentOnlyTagPrompt : Config :=
  { Templates := [],
    AIPrompts :=
    { TagGenerationPrompt := "X",
      AssistantSuggestionsPrompt := "",
      AssistantRewritePrompt := "",
      AssistantEnhanceSlightPrompt := "",
      AssistantEnhanceElaboratePrompt := "" } }

/-- The text of `documentOnlyTagPrompt`. -/
def jsonOnlyTagPrompt : String := "\x7b\"aiPrompts\":\x7b\"tagGenerationPrompt\":\"X\"\x7d\x7d"

/-- A document with one template and no prompts. -/
def documentOneTemplate : Config :=
  { Templates := [{ ID := "todo", Name := "Todo", Description := "", Content := "- [ ] ", Icon := "" }],
    AIPrompts :=
    { TagGenerationPrompt := "",
      AssistantSuggestionsPrompt := "",
      AssistantRewritePrompt := "",
      AssistantEnhanceSlightPrompt := "",
      AssistantEnhanceElaboratePrompt := "" } }

/-- The text of `documentOneTemplate`. -/
def jsonOneTemplate : String :=
  "\x7b\"templates\":[\x7b\"id\":\"todo\",\"name\":\"Todo\",\"content\":\"- [ ] \"\x7d]\x7d"

/-- A store for examples: the state is the persisted basic setting; the fetch
returns it unless `getErr` is set, and the upsert persists and returns the setting
it is given unless `upsertErr` is set. -/
def Store.inMemory (getErr upsertErr : Option String) : Store (InstanceBasicSetting Unit) Unit :=
  { GetInstanceBasicSetting := fun st =>
      match getErr with
      | some err => (.error err, st)
      | none => (.ok st, st),
    UpsertInstanceSetting := fun setting st =>
      match upsertErr with
      | some err => (.error err, st)
      | none =>
        match setting.GetBasicSetting with
        | some b => (.ok setting, b)
        | none => (.ok setting, st) }

/-- A world for examples: no `config.json`, the in-memory store, a fixed UUID, a
gateway that registers. -/
def ServerEnv.inMemory (getErr upsertErr : Option String) :
    ServerEnv (InstanceBasicSetting Unit) Unit :=
  { config := { file := fun _ => .notExist, unmarshal := fun _ => .error "unexpected end of JSON input" },
    store := Store.inMemory getErr upsertErr,
    newUUID := "6ba7b810-9dad-11d1-80b4-00c04fd430c8",
    registerGateway := none }

/-- A development profile. -/
def devProfile : Profile :=
  { Mode := "dev", Addr := "", Port := 8081, UNIXSock := "", Data := "/var/opt/memos" }

/-- A production profile. -/
def prodProfile : Profile :=
  { Mode := "prod", Addr := "", Port := 5230, UNIXSock := "", Data := "/var/opt/memos" }

/-- A document whose two templates share an ID. -/
def documentDuplicateID : Config :=
  { Templates :=
      [{ ID := "todo", Name := "Todo", Description := "", Content := "- [ ] ", Icon := "" },
       { ID := "todo", Name := "Todo again", Description := "", Content := "", Icon := "" }],
    AIPrompts := GetDefaultConfig.AIPrompts }

/-- A world for examples whose `config.json` parses to `documentDuplicateID`. -/
def ServerEnv.duplicateID : ServerEnv (InstanceBasicSetting Unit) Unit :=
  { ServerEnv.inMemory none none with
    config := ConfigEnv.ofDocument "duplicate" documentDuplicateID }

/-- A Server as `NewServer` returns it in development mode. -/
def devServer : Server :=
  { Secret := "usememos", Profile := devProfile, Config := GetDefaultConfig, runnerCancelFuncs := [] }

/-! ## Validation: the loop invariant -/

/-- The loop accepts a list exactly when every template has a non-empty ID and
Name, no ID is already in the map, and the IDs of the list are pairwise distinct. -/
theorem ValidateConfig.loop_eq_none_iff (templates : List Template) :
    ∀ templateIDs : String → Bool,
      ValidateConfig.loop templateIDs templates = none ↔
        (∀ t ∈ templates, t.ID ≠ "" ∧ t.Name ≠ "" ∧ templateIDs t.ID = false) ∧
          (templates.map Template.ID).Nodup := by
  induction templates with
  | nil => intro m; simp [ValidateConfig.loop]
  | cons t rest ih =>
    intro m
    by_cases h1 : t.ID = ""
    · simp [ValidateConfig.loop, h1]
    by_cases h2 : t.Name = ""
    · simp [ValidateConfig.loop, h1, h2]
    by_cases h3 : m t.ID = true
    · simp [ValidateConfig.loop, h1, h2, h3]
    have hstep : ValidateConfig.loop m (t :: rest) =
        ValidateConfig.loop (fun k => if k = t.ID then true else m k) rest := by
      simp [ValidateConfig.loop, h1, h2, h3]
    rw [hstep, ih]
    have h3f : m t.ID = false := by simpa using h3
    constructor
    · rintro ⟨hall, hnd⟩
      refine ⟨?_, ?_⟩
      · intro u hu
        rcases List.mem_cons.1 hu with rfl | hu
        · exact ⟨h1, h2, h3f⟩
        · obtain ⟨a, b, c⟩ := hall u hu
          refine ⟨a, b, ?_⟩
          by_cases hk : u.ID = t.ID
          · simp [hk] at c
          · simpa [hk] using c
      · rw [List.map_cons, List.nodup_cons]
        refine ⟨?_, hnd⟩
        intro hmem
        obtain ⟨u, hu, hue⟩ := List.mem_map.1 hmem
        have := (hall u hu).2.2
        simp [hue] at this
    · rintro ⟨hall, hnd⟩
      rw [List.map_cons, List.nodup_cons] at hnd
      refine ⟨?_, hnd.2⟩
      intro u hu
      obtain ⟨a, b, c⟩ := hall u (List.mem_cons_of_mem _ hu)
      refine ⟨a, b, ?_⟩
      have hk : u.ID ≠ t.ID := fun hk => hnd.1 (List.mem_map.2 ⟨u, hu, hk⟩)
      simpa [hk] using c

/-- ValidateConfig returns nil exactly when every ID and Name is non-empty and the
IDs are pairwise distinct. -/
theorem ValidateConfig_eq_none_iff (config : Config) :
    ValidateConfig (some config) = none ↔
      (∀ t ∈ config.Templates, t.ID ≠ "" ∧ t.Name ≠ "") ∧
        (config.Templates.map Template.ID).Nodup := by
  simp [ValidateConfig, ValidateConfig.loop_eq_none_iff]

/-- The IDs of a list are not pairwise distinct exactly when two positions of the
list hold the same ID. -/
theorem not_nodup_ids_iff (templates : List Template) :
    ¬ (templates.map Template.ID).Nodup ↔
      ∃ i j : Fin templates.length, i < j ∧ (templates.get i).ID = (templates.get j).ID := by
  rw [List.Nodup, List.pairwise_map, List.pairwise_iff_get]
  push_neg
  constructor
  · rintro ⟨i, j, hij, h⟩
    exact ⟨i, j, hij, h⟩
  · rintro ⟨i, j, hij, h⟩
    exact ⟨i, j, hij, h⟩

/-- The default configuration passes validation. -/
theorem ValidateConfig_GetDefaultConfig : ValidateConfig (some GetDefaultConfig) = none := by
  decide

/-! ## Claims about `internal/config` -/

/-- C1: for every non-nil Config, ValidateConfig returns an error if and only if
the template sequence holds a template with an empty ID, a template with an empty
Name, or two templates (at two different positions) with the same ID; equivalently
it returns nil exactly when every ID and Name is non-empty and all IDs are pairwise
distinct. -/
theorem C1_ValidateConfig_error_iff (config : Config) :
    ((ValidateConfig (some config)).isSome ↔
        (∃ t ∈ config.Templates, t.ID = "") ∨ (∃ t ∈ config.Templates, t.Name = "") ∨
          ∃ i j : Fin config.Templates.length,
            i < j ∧ (config.Templates.get i).ID = (config.Templates.get j).ID) ∧
      (ValidateConfig (some config) = none ↔
        (∀ t ∈ config.Templates, t.ID ≠ "" ∧ t.Name ≠ "") ∧
          (config.Templates.map Template.ID).Nodup) := by
  refine ⟨?_, ValidateConfig_eq_none_iff config⟩
  rw [← not_nodup_ids_iff]
  have h := ValidateConfig_eq_none_iff config
  cases hv : ValidateConfig (some config) with
  | none =>
    have hok := h.1 hv
    simp only [Option.isSome_none, Bool.false_eq_true, false_iff, not_or, not_exists, not_and,
      not_not]
    exact ⟨fun t ht => (hok.1 t ht).1, fun t ht => (hok.1 t ht).2, hok.2⟩
  | some e =>
    simp only [Option.isSome_some, true_iff]
    by_contra hcon
    push_neg at hcon
    have : ValidateConfig (some config) = none :=
      h.2 ⟨fun t ht => ⟨hcon.1 t ht, hcon.2.1 t ht⟩, hcon.2.2⟩
    rw [hv] at this
    exact Option.noConfusion this

/-- The merge of `LoadConfig` in closed form: on a document that was read and
parsed, each top-level field is the one of the document unless it is empty, and
the default one if it is. -/
theorem LoadConfig_of_parsed (env : ConfigEnv) (dataDir data : String) (doc : Config)
    (hfile : env.file dataDir = .readable data) (hparse : env.unmarshal data = .ok doc) :
    LoadConfig env dataDir = .ok
      { Templates := if doc.Templates = [] then GetDefaultConfig.Templates else doc.Templates,
        AIPrompts :=
        { TagGenerationPrompt :=
            if doc.AIPrompts.TagGenerationPrompt = "" then
              GetDefaultConfig.AIPrompts.TagGenerationPrompt
            else doc.AIPrompts.TagGenerationPrompt,
          AssistantSuggestionsPrompt :=
            if doc.AIPrompts.AssistantSuggestionsPrompt = "" then
              GetDefaultConfig.AIPrompts.AssistantSuggestionsPrompt
            else doc.AIPrompts.AssistantSuggestionsPrompt,
          AssistantRewritePrompt :=
            if doc.AIPrompts.AssistantRewritePrompt = "" then
              GetDefaultConfig.AIPrompts.AssistantRewritePrompt
            else doc.AIPrompts.AssistantRewritePrompt,
          AssistantEnhanceSlightPrompt :=
            if doc.AIPrompts.AssistantEnhanceSlightPrompt = "" then
              GetDefaultConfig.AIPrompts.AssistantEnhanceSlightPrompt
            else doc.AIPrompts.AssistantEnhanceSlightPrompt,
          AssistantEnhanceElaboratePrompt :=
            if doc.AIPrompts.AssistantEnhanceElaboratePrompt = "" then
              GetDefaultConfig.AIPrompts.AssistantEnhanceElaboratePrompt
            else doc.AIPrompts.AssistantEnhanceElaboratePrompt } } := by
  obtain ⟨ts, ⟨p1, p2, p3, p4, p5⟩⟩ := doc
  simp only [LoadConfig, hfile, hparse, List.length_eq_zero]
  by_cases h0 : ts = [] <;> by_cases h1 : p1 = "" <;> by_cases h2 : p2 = "" <;>
    by_cases h3 : p3 = "" <;> by_cases h4 : p4 = "" <;> by_cases h5 : p5 = "" <;>
    simp only [h0, h1, h2, h3, h4, h5, if_true, if_false]

/-- C3: for every document that was read and parsed, LoadConfig succeeds, and the
resolved template sequence is the whole default sequence when the document has no
templates and the sequence of the document itself, unchanged, when it has at least
one; so it is the default sequence only for a document without templates or with
exactly the default ones. -/
theorem C3_LoadConfig_templates (env : ConfigEnv) (dataDir data : String) (doc : Config)
    (hfile : env.file dataDir = .readable data) (hparse : env.unmarshal data = .ok doc) :
    ∃ cfg, LoadConfig env dataDir = .ok cfg ∧
      (doc.Templates = [] → cfg.Templates = GetDefaultConfig.Templates) ∧
      (doc.Templates ≠ [] → cfg.Templates = doc.Templates) ∧
      (cfg.Templates = GetDefaultConfig.Templates ↔
        doc.Templates = [] ∨ doc.Templates = GetDefaultConfig.Templates) := by
  refine ⟨_, LoadConfig_of_parsed env dataDir data doc hfile hparse, ?_, ?_, ?_⟩
  · intro h; simp only [h, if_true]
  · intro h; simp only [h, if_false]
  · by_cases h : doc.Templates = []
    · simp only [h, if_true, true_or]
    · simp only [h, if_false, false_or]

/-- C3 at a document with one template: it is kept as it is, with no default
template added. -/
theorem C3_LoadConfig_templates_witness :
    ∃ cfg, LoadConfig (ConfigEnv.ofDocument jsonOneTemplate documentOneTemplate) "/var/opt/memos"
        = .ok cfg ∧ cfg.Templates = documentOneTemplate.Templates := by
  obtain ⟨cfg, hload, _, hkeep, _⟩ :=
    C3_LoadConfig_templates (ConfigEnv.ofDocument jsonOneTemplate documentOneTemplate)
      "/var/opt/memos" jsonOneTemplate documentOneTemplate rfl (by simp [ConfigEnv.ofDocument])
  exact ⟨cfg, hload, hkeep (by decide)⟩

/-- C4: for every document that was read and parsed, each of the five prompt
fields resolved by LoadConfig is, independently of the others, the value of the
document when that value is non-empty and the default string when it is empty; a
document that sets only tagGenerationPrompt to "X" resolves to that prompt being
"X", the four other prompts being the defaults, and the default templates. -/
theorem C4_LoadConfig_prompts (env : ConfigEnv) (dataDir data : String) (doc : Config)
    (hfile : env.file dataDir = .readable data) (hparse : env.unmarshal data = .ok doc) :
    ∃ cfg, LoadConfig env dataDir = .ok cfg ∧
      cfg.AIPrompts.TagGenerationPrompt =
        (if doc.AIPrompts.TagGenerationPrompt = "" then
          GetDefaultConfig.AIPrompts.TagGenerationPrompt
        else doc.AIPrompts.TagGenerationPrompt) ∧
      cfg.AIPrompts.AssistantSuggestionsPrompt =
        (if doc.AIPrompts.AssistantSuggestionsPrompt = "" then
          GetDefaultConfig.AIPrompts.AssistantSuggestionsPrompt
        else doc.AIPrompts.AssistantSuggestionsPrompt) ∧
      cfg.AIPrompts.AssistantRewritePrompt =
        (if doc.AIPrompts.AssistantRewritePrompt = "" then
          GetDefaultConfig.AIPrompts.AssistantRewritePrompt
        else doc.AIPrompts.AssistantRewritePrompt) ∧
      cfg.AIPrompts.AssistantEnhanceSlightPrompt =
        (if doc.AIPrompts.AssistantEnhanceSlightPrompt = "" then
          GetDefaultConfig.AIPrompts.AssistantEnhanceSlightPrompt
        else doc.AIPrompts.AssistantEnhanceSlightPrompt) ∧
      cfg.AIPrompts.AssistantEnhanceElaboratePrompt =
        (if doc.AIPrompts.AssistantEnhanceElaboratePrompt = "" then
          GetDefaultConfig.AIPrompts.AssistantEnhanceElaboratePrompt
        else doc.AIPrompts.AssistantEnhanceElaboratePrompt) ∧
      (doc = documentOnlyTagPrompt →
        cfg.AIPrompts = { GetDefaultConfig.AIPrompts with TagGenerationPrompt := "X" } ∧
          cfg.Templates = GetDefaultConfig.Templates) := by
  refine ⟨_, LoadConfig_of_parsed env dataDir data doc hfile hparse, rfl, rfl, rfl, rfl, rfl, ?_⟩
  intro h
  subst h
  exact ⟨rfl, rfl⟩

/-- C4 at the document that sets only the tag generation prompt. -/
theorem C4_LoadConfig_prompts_witness :
    ∃ cfg, LoadConfig (ConfigEnv.ofDocument jsonOnlyTagPrompt documentOnlyTagPrompt) "/var/opt/memos"
        = .ok cfg ∧
      cfg.AIPrompts = { GetDefaultConfig.AIPrompts with TagGenerationPrompt := "X" } ∧
      cfg.Templates = GetDefaultConfig.Templates := by
  obtain ⟨cfg, hload, _, _, _, _, _, hdoc⟩ :=
    C4_LoadConfig_prompts (ConfigEnv.ofDocument jsonOnlyTagPrompt documentOnlyTagPrompt)
      "/var/opt/memos" jsonOnlyTagPrompt documentOnlyTagPrompt rfl (by simp [ConfigEnv.ofDocument])
  exact ⟨cfg, hload, hdoc rfl⟩

/-- Every default is non-empty: the default template sequence and the five
default prompts. -/
theorem GetDefaultConfig_nonempty :
    GetDefaultConfig.Templates ≠ [] ∧
      GetDefaultConfig.AIPrompts.TagGenerationPrompt ≠ "" ∧
      GetDefaultConfig.AIPrompts.AssistantSuggestionsPrompt ≠ "" ∧
      GetDefaultConfig.AIPrompts.AssistantRewritePrompt ≠ "" ∧
      GetDefaultConfig.AIPrompts.AssistantEnhanceSlightPrompt ≠ "" ∧
      GetDefaultConfig.AIPrompts.AssistantEnhanceElaboratePrompt ≠ "" := by
  decide

/-- C5: field-level fallback totality. For every document that was read and
parsed, LoadConfig succeeds and the resolved Config has a non-empty template
sequence and five non-empty prompt strings; every default is itself non-empty. -/
theorem C5_LoadConfig_fallback_total (env : ConfigEnv) (dataDir data : String) (doc : Config)
    (hfile : env.file dataDir = .readable data) (hparse : env.unmarshal data = .ok doc) :
    (∃ cfg, LoadConfig env dataDir = .ok cfg ∧
      cfg.Templates ≠ [] ∧
      cfg.AIPrompts.TagGenerationPrompt ≠ "" ∧
      cfg.AIPrompts.AssistantSuggestionsPrompt ≠ "" ∧
      cfg.AIPrompts.AssistantRewritePrompt ≠ "" ∧
      cfg.AIPrompts.AssistantEnhanceSlightPrompt ≠ "" ∧
      cfg.AIPrompts.AssistantEnhanceElaboratePrompt ≠ "") ∧
    (GetDefaultConfig.Templates ≠ [] ∧
      GetDefaultConfig.AIPrompts.TagGenerationPrompt ≠ "" ∧
      GetDefaultConfig.AIPrompts.AssistantSuggestionsPrompt ≠ "" ∧
      GetDefaultConfig.AIPrompts.AssistantRewritePrompt ≠ "" ∧
      GetDefaultConfig.AIPrompts.AssistantEnhanceSlightPrompt ≠ "" ∧
      GetDefaultConfig.AIPrompts.AssistantEnhanceElaboratePrompt ≠ "") := by
  obtain ⟨d0, d1, d2, d3, d4, d5⟩ := GetDefaultConfig_nonempty
  refine ⟨⟨_, LoadConfig_of_parsed env dataDir data doc hfile hparse, ?_, ?_, ?_, ?_, ?_, ?_⟩,
    d0, d1, d2, d3, d4, d5⟩
  · show (if doc.Templates = [] then _ else _) ≠ _
    split_ifs with h
    · exact d0
    · exact h
  · show (if doc.AIPrompts.TagGenerationPrompt = "" then _ else _) ≠ _
    split_ifs with h
    · exact d1
    · exact h
  · show (if doc.AIPrompts.AssistantSuggestionsPrompt = "" then _ else _) ≠ _
    split_ifs with h
    · exact d2
    · exact h
  · show (if doc.AIPrompts.AssistantRewritePrompt = "" then _ else _) ≠ _
    split_ifs with h
    · exact d3
    · exact h
  · show (if doc.AIPrompts.AssistantEnhanceSlightPrompt = "" then _ else _) ≠ _
    split_ifs with h
    · exact d4
    · exact h
  · show (if doc.AIPrompts.AssistantEnhanceElaboratePrompt = "" then _ else _) ≠ _
    split_ifs with h
    · exact d5
    · exact h

/-- C5 at a document with one template and no prompt: the five prompts are filled
in and the template sequence stays non-empty. -/
theorem C5_LoadConfig_fallback_total_witness :
    (∃ cfg, LoadConfig (ConfigEnv.ofDocument jsonOneTemplate documentOneTemplate) "data" = .ok cfg ∧
      cfg.Templates ≠ [] ∧
      cfg.AIPrompts.TagGenerationPrompt ≠ "" ∧
      cfg.AIPrompts.AssistantSuggestionsPrompt ≠ "" ∧
      cfg.AIPrompts.AssistantRewritePrompt ≠ "" ∧
      cfg.AIPrompts.AssistantEnhanceSlightPrompt ≠ "" ∧
      cfg.AIPrompts.AssistantEnhanceElaboratePrompt ≠ "") :=
  (C5_LoadConfig_fallback_total (ConfigEnv.ofDocument jsonOneTemplate documentOneTemplate)
    "data" jsonOneTemplate documentOneTemplate rfl (by simp [ConfigEnv.ofDocument])).1

/-! ## Construction: what `NewServer` returns -/

/-- Inversion of a successful `NewServer`: secret provisioning and gateway
registration succeeded, the store is left as provisioning left it, the secret is
the development token outside production and the provisioned key in production,
and the configuration is the loaded one if it loads and validates and the default
one otherwise. -/
theorem NewServer_ok_inv {σ ρ : Type} (env : ServerEnv σ ρ) (profile : Profile) (st st1 : σ)
    (srv : Server) (effects : List Effect)
    (h : NewServer env profile st = (.ok srv, st1, effects)) :
    (∃ setting calls,
        getOrUpsertInstanceBasicSetting env.store env.newUUID st = (.ok setting, st1, calls) ∧
        (profile.Mode = "prod" → ∃ b, setting = some b ∧ srv.Secret = b.SecretKey) ∧
        (profile.Mode ≠ "prod" → srv.Secret = "usememos") ∧
        ∀ e ∈ effects, e ∈ calls ∨ ∃ msg, e = .log .warn msg) ∧
      env.registerGateway = none ∧
      ((∃ cfg, LoadConfig env.config profile.Data = .ok cfg ∧
          ValidateConfig (some cfg) = none ∧ srv.Config = cfg) ∨
        srv.Config = GetDefaultConfig) := by
  unfold NewServer at h
  rcases hG : getOrUpsertInstanceBasicSetting env.store env.newUUID st with ⟨r, s, c⟩
  rw [hG] at h
  cases r with
  | error e =>
    simp only [Prod.mk.injEq] at h
    exact absurd h.1 (by simp)
  | ok setting =>
    cases hR : env.registerGateway with
    | some e =>
      rw [hR] at h
      by_cases hm : profile.Mode = "prod"
      · cases setting <;> simp [hm] at h
      · simp [hm] at h
    | none =>
      rw [hR] at h
      cases hL : LoadConfig env.config profile.Data with
      | error e =>
        rw [hL] at h
        simp only [ValidateConfig_GetDefaultConfig] at h
        by_cases hm : profile.Mode = "prod"
        · cases setting with
          | none => simp [hm] at h
          | some b =>
            simp only [hm, if_true, Prod.mk.injEq, Result.ok.injEq] at h
            obtain ⟨rfl, rfl, rfl⟩ := h
            refine ⟨⟨_, _, rfl, fun _ => ⟨b, rfl, rfl⟩, fun hn => absurd hm hn, ?_⟩, rfl, Or.inr rfl⟩
            intro e he
            simp only [List.mem_append, List.mem_singleton, List.not_mem_nil, or_false] at he
            aesop
        · simp only [hm, if_false, Prod.mk.injEq, Result.ok.injEq] at h
          obtain ⟨rfl, rfl, rfl⟩ := h
          refine ⟨⟨_, _, rfl, fun hp => absurd hp hm, fun _ => rfl, ?_⟩, rfl, Or.inr rfl⟩
          intro e he
          simp only [List.mem_append, List.mem_singleton, List.not_mem_nil, or_false] at he
          aesop
      | ok cfg =>
        rw [hL] at h
        cases hV : ValidateConfig (some cfg) with
        | some e =>
          simp only [hV] at h
          by_cases hm : profile.Mode = "prod"
          · cases setting with
            | none => simp [hm] at h
            | some b =>
              simp only [hm, if_true, Prod.mk.injEq, Result.ok.injEq] at h
              obtain ⟨rfl, rfl, rfl⟩ := h
              refine ⟨⟨_, _, rfl, fun _ => ⟨b, rfl, rfl⟩, fun hn => absurd hm hn, ?_⟩, rfl, Or.inr rfl⟩
              intro e he
              simp only [List.mem_append, List.mem_singleton, List.not_mem_nil, or_false] at he
              aesop
          · simp only [hm, if_false, Prod.mk.injEq, Result.ok.injEq] at h
            obtain ⟨rfl, rfl, rfl⟩ := h
            refine ⟨⟨_, _, rfl, fun hp => absurd hp hm, fun _ => rfl, ?_⟩, rfl, Or.inr rfl⟩
            intro e he
            simp only [List.mem_append, List.mem_singleton, List.not_mem_nil, or_false] at he
            aesop
        | none =>
          simp only [hV] at h
          by_cases hm : profile.Mode = "prod"
          · cases setting with
            | none => simp [hm] at h
            | some b =>
              simp only [hm, if_true, Prod.mk.injEq, Result.ok.injEq] at h
              obtain ⟨rfl, rfl, rfl⟩ := h
              refine ⟨⟨_, _, rfl, fun _ => ⟨b, rfl, rfl⟩, fun hn => absurd hm hn, ?_⟩, rfl, Or.inl ⟨cfg, rfl, hV, rfl⟩⟩
              intro e he
              simp only [List.mem_append, List.mem_singleton, List.not_mem_nil, or_false] at he
              aesop
          · simp only [hm, if_false, Prod.mk.injEq, Result.ok.injEq] at h
            obtain ⟨rfl, rfl, rfl⟩ := h
            refine ⟨⟨_, _, rfl, fun hp => absurd hp hm, fun _ => rfl, ?_⟩, rfl, Or.inl ⟨cfg, rfl, hV, rfl⟩⟩
            intro e he
            simp only [List.mem_append, List.mem_singleton, List.not_mem_nil, or_false] at he
            aesop

/-- When secret provisioning fails, `NewServer` returns its error, wrapped, and no
Server. -/
theorem NewServer_error_of_provision_error {σ ρ : Type} (env : ServerEnv σ ρ) (profile : Profile)
    (st st1 : σ) (err : String) (calls : List Effect)
    (hG : getOrUpsertInstanceBasicSetting env.store env.newUUID st = (.error err, st1, calls)) :
    ∃ effects, NewServer env profile st =
      (.error ("failed to get instance basic setting: " ++ err), st1, effects) := by
  unfold NewServer
  rw [hG]
  rcases LoadConfig env.config profile.Data with e | cfg
  · exact ⟨_, rfl⟩
  · rcases hV : ValidateConfig (some cfg) with _ | e
    · simp only [hV]; exact ⟨_, rfl⟩
    · simp only [hV]; exact ⟨_, rfl⟩

/-- When secret provisioning and gateway registration succeed and the secret can
be read (outside production always, in production when the provisioned setting is
not nil), `NewServer` returns a Server and leaves the store as provisioning did. -/
theorem NewServer_ok_of_provision_ok {σ ρ : Type} (env : ServerEnv σ ρ) (profile : Profile)
    (st st1 : σ) (setting : Option (InstanceBasicSetting ρ)) (calls : List Effect)
    (hG : getOrUpsertInstanceBasicSetting env.store env.newUUID st = (.ok setting, st1, calls))
    (hR : env.registerGateway = none)
    (hS : profile.Mode = "prod" → setting ≠ none) :
    ∃ srv effects, NewServer env profile st = (.ok srv, st1, effects) := by
  unfold NewServer
  rw [hG, hR]
  by_cases hm : profile.Mode = "prod"
  · cases setting with
    | none => exact absurd rfl (hS hm)
    | some b =>
      rcases LoadConfig env.config profile.Data with e | cfg
      · simp only [hm, if_true]; exact ⟨_, _, rfl⟩
      · rcases hV : ValidateConfig (some cfg) with _ | e
        · simp only [hV, hm, if_true]; exact ⟨_, _, rfl⟩
        · simp only [hV, hm, if_true]; exact ⟨_, _, rfl⟩
  · rcases LoadConfig env.config profile.Data with e | cfg
    · simp only [hm, if_false]; exact ⟨_, _, rfl⟩
    · rcases hV : ValidateConfig (some cfg) with _ | e
      · simp only [hV, hm, if_false]; exact ⟨_, _, rfl⟩
      · simp only [hV, hm, if_false]; exact ⟨_, _, rfl⟩

/-! ## Secret provisioning, case by case on what the store does -/

/-- A failing fetch: the error comes back wrapped, after the one store call. -/
theorem getOrUpsert_of_get_error {σ ρ : Type} (store : Store σ ρ) (newUUID : String)
    (st st1 : σ) (err : String)
    (hget : store.GetInstanceBasicSetting st = (.error err, st1)) :
    getOrUpsertInstanceBasicSetting store newUUID st =
      (.error ("failed to get instance basic setting: " ++ err), st1, [.storeGet]) := by
  unfold getOrUpsertInstanceBasicSetting
  rw [hget]

/-- A fetched non-empty key: the setting comes back after the one store call. -/
theorem getOrUpsert_of_key {σ ρ : Type} (store : Store σ ρ) (newUUID : String)
    (st st1 : σ) (b : InstanceBasicSetting ρ)
    (hget : store.GetInstanceBasicSetting st = (.ok b, st1)) (hne : b.SecretKey ≠ "") :
    getOrUpsertInstanceBasicSetting store newUUID st = (.ok (some b), st1, [.storeGet]) := by
  unfold getOrUpsertInstanceBasicSetting
  rw [hget]
  simp [hne]

/-- A fetched empty key and a failing upsert: the error of the upsert comes back
wrapped. -/
theorem getOrUpsert_of_upsert_error {σ ρ : Type} (store : Store σ ρ) (newUUID : String)
    (st st1 st2 : σ) (b : InstanceBasicSetting ρ) (err : String)
    (hget : store.GetInstanceBasicSetting st = (.ok b, st1)) (hempty : b.SecretKey = "")
    (hup : store.UpsertInstanceSetting
      { Key := .BASIC, Value := .BasicSetting { b with SecretKey := newUUID } } st1 =
        (.error err, st2)) :
    getOrUpsertInstanceBasicSetting store newUUID st =
      (.error ("failed to upsert instance setting: " ++ err), st2,
        [.storeGet, .storeUpsert .BASIC newUUID]) := by
  unfold getOrUpsertInstanceBasicSetting
  rw [hget]
  simp [hempty, hup]

/-- A fetched empty key and a successful upsert: the basic setting of the upserted
setting comes back. -/
theorem getOrUpsert_of_upsert_ok {σ ρ : Type} (store : Store σ ρ) (newUUID : String)
    (st st1 st2 : σ) (b : InstanceBasicSetting ρ) (upserted : InstanceSetting ρ)
    (hget : store.GetInstanceBasicSetting st = (.ok b, st1)) (hempty : b.SecretKey = "")
    (hup : store.UpsertInstanceSetting
      { Key := .BASIC, Value := .BasicSetting { b with SecretKey := newUUID } } st1 =
        (.ok upserted, st2)) :
    getOrUpsertInstanceBasicSetting store newUUID st =
      (.ok upserted.GetBasicSetting, st2, [.storeGet, .storeUpsert .BASIC newUUID]) := by
  unfold getOrUpsertInstanceBasicSetting
  rw [hget]
  simp [hempty, hup]

/-! ## Claims about secret provisioning -/

/-- C2, as stated, fails: in development mode a store that holds a secret yields
a Server with the development token, while a store whose fetch fails, or whose
secret is empty and whose upsert fails, yields an error and no Server at all. -/
theorem C2_dev_secret_counterexample :
    (∃ srv, (NewServer (ServerEnv.inMemory none none) devProfile ⟨"k3y", ()⟩).1 = .ok srv ∧
        srv.Secret = "usememos") ∧
      (NewServer (ServerEnv.inMemory (some "database is locked") none) devProfile ⟨"k3y", ()⟩).1 =
        .error ("failed to get instance basic setting: " ++
          "failed to get instance basic setting: database is locked") ∧
      (NewServer (ServerEnv.inMemory none (some "database is locked")) devProfile ⟨"", ()⟩).1 =
        .error ("failed to get instance basic setting: " ++
          "failed to upsert instance setting: database is locked") ∧
      ¬ ∃ srv, (NewServer (ServerEnv.inMemory (some "database is locked") none) devProfile
          ⟨"k3y", ()⟩).1 = .ok srv ∧ srv.Secret = "usememos" := by
  refine ⟨⟨_, rfl, rfl⟩, rfl, rfl, ?_⟩
  rintro ⟨srv, h, -⟩
  exact Result.noConfusion h

/-- C2, amended: in development mode every Server that NewServer returns has the
development token "usememos" as its Secret, whatever the store holds; NewServer
returns one whenever secret provisioning and gateway registration succeed, that is
when the fetch returns a non-empty key, or returns an empty key and the upsert
succeeds; and when the fetch of the store fails, or the key is empty and the upsert
fails, it returns the error of that store call, wrapped twice, and no Server. -/
theorem C2_dev_secret {σ ρ : Type} (env : ServerEnv σ ρ) (profile : Profile) (st : σ)
    (hmode : profile.Mode ≠ "prod") :
    (∀ srv st1 effects, NewServer env profile st = (.ok srv, st1, effects) →
        srv.Secret = "usememos") ∧
      (∀ setting st1 calls,
        getOrUpsertInstanceBasicSetting env.store env.newUUID st = (.ok setting, st1, calls) →
        env.registerGateway = none →
        ∃ srv effects, NewServer env profile st = (.ok srv, st1, effects) ∧
          srv.Secret = "usememos") ∧
      (∀ err st1 calls,
        getOrUpsertInstanceBasicSetting env.store env.newUUID st = (.error err, st1, calls) →
        ∃ effects, NewServer env profile st =
          (.error ("failed to get instance basic setting: " ++ err), st1, effects)) ∧
      (∀ err st1, env.store.GetInstanceBasicSetting st = (.error err, st1) →
        (∃ effects, NewServer env profile st =
          (.error ("failed to get instance basic setting: " ++
            ("failed to get instance basic setting: " ++ err)), st1, effects)) ∧
        ¬ ∃ srv, (NewServer env profile st).1 = .ok srv) ∧
      (∀ b st1 err st2, env.store.GetInstanceBasicSetting st = (.ok b, st1) →
        b.SecretKey = "" →
        env.store.UpsertInstanceSetting
          { Key := .BASIC, Value := .BasicSetting { b with SecretKey := env.newUUID } } st1 =
            (.error err, st2) →
        (∃ effects, NewServer env profile st =
          (.error ("failed to get instance basic setting: " ++
            ("failed to upsert instance setting: " ++ err)), st2, effects)) ∧
        ¬ ∃ srv, (NewServer env profile st).1 = .ok srv) ∧
      (∀ b st1, env.store.GetInstanceBasicSetting st = (.ok b, st1) → b.SecretKey ≠ "" →
        env.registerGateway = none →
        ∃ srv effects, NewServer env profile st = (.ok srv, st1, effects) ∧
          srv.Secret = "usememos") ∧
      (∀ b st1 upserted st2, env.store.GetInstanceBasicSetting st = (.ok b, st1) →
        b.SecretKey = "" →
        env.store.UpsertInstanceSetting
          { Key := .BASIC, Value := .BasicSetting { b with SecretKey := env.newUUID } } st1 =
            (.ok upserted, st2) →
        env.registerGateway = none →
        ∃ srv effects, NewServer env profile st = (.ok srv, st2, effects) ∧
          srv.Secret = "usememos") := by
  have hsecret : ∀ srv st1 effects, NewServer env profile st = (.ok srv, st1, effects) →
      srv.Secret = "usememos" := by
    intro srv st1 effects h
    obtain ⟨⟨_, _, _, _, hdev, _⟩, _, _⟩ := NewServer_ok_inv env profile st st1 srv effects h
    exact hdev hmode
  have hok : ∀ setting st1 calls,
      getOrUpsertInstanceBasicSetting env.store env.newUUID st = (.ok setting, st1, calls) →
      env.registerGateway = none →
      ∃ srv effects, NewServer env profile st = (.ok srv, st1, effects) ∧
        srv.Secret = "usememos" := by
    intro setting st1 calls hG hR
    obtain ⟨srv, effects, h⟩ :=
      NewServer_ok_of_provision_ok env profile st st1 setting calls hG hR
        (fun hp => absurd hp hmode)
    exact ⟨srv, effects, h, hsecret srv st1 effects h⟩
  have herr : ∀ err st1 calls,
      getOrUpsertInstanceBasicSetting env.store env.newUUID st = (.error err, st1, calls) →
      (∃ effects, NewServer env profile st =
        (.error ("failed to get instance basic setting: " ++ err), st1, effects)) ∧
      ¬ ∃ srv, (NewServer env profile st).1 = .ok srv := by
    intro err st1 calls hG
    obtain ⟨effects, h⟩ := NewServer_error_of_provision_error env profile st st1 err calls hG
    refine ⟨⟨effects, h⟩, ?_⟩
    rintro ⟨srv, hsrv⟩
    rw [h] at hsrv
    exact Result.noConfusion hsrv
  refine ⟨hsecret, hok, fun err st1 calls hG => (herr err st1 calls hG).1, ?_, ?_, ?_, ?_⟩
  · intro err st1 hget
    exact herr _ st1 _ (getOrUpsert_of_get_error env.store env.newUUID st st1 err hget)
  · intro b st1 err st2 hget hempty hup
    exact herr _ st2 _
      (getOrUpsert_of_upsert_error env.store env.newUUID st st1 st2 b err hget hempty hup)
  · intro b st1 hget hne hR
    exact hok _ st1 _ (getOrUpsert_of_key env.store env.newUUID st st1 b hget hne) hR
  · intro b st1 upserted st2 hget hempty hup hR
    exact hok _ st2 _
      (getOrUpsert_of_upsert_ok env.store env.newUUID st st1 st2 b upserted hget hempty hup) hR

/-- C2, amended, at a store that holds the secret "k3y": the Server of
development mode carries "usememos", not the persisted secret; and at a store whose
fetch fails with "database is locked": NewServer returns that error, wrapped. -/
theorem C2_dev_secret_witness :
    (∃ srv effects, NewServer (ServerEnv.inMemory none none) devProfile ⟨"k3y", ()⟩ =
        (.ok srv, ⟨"k3y", ()⟩, effects) ∧ srv.Secret = "usememos") ∧
      ((∃ effects,
          NewServer (ServerEnv.inMemory (some "database is locked") none) devProfile ⟨"k3y", ()⟩ =
            (.error ("failed to get instance basic setting: " ++
              ("failed to get instance basic setting: " ++ "database is locked")),
              ⟨"k3y", ()⟩, effects)) ∧
        ¬ ∃ srv, (NewServer (ServerEnv.inMemory (some "database is locked") none) devProfile
          ⟨"k3y", ()⟩).1 = .ok srv) :=
  ⟨(C2_dev_secret (ServerEnv.inMemory none none) devProfile ⟨"k3y", ()⟩ (by decide)).2.1
      (some ⟨"k3y", ()⟩) ⟨"k3y", ()⟩ [.storeGet] rfl rfl,
    (C2_dev_secret (ServerEnv.inMemory (some "database is locked") none) devProfile ⟨"k3y", ()⟩
      (by decide)).2.2.2.1 "database is locked" ⟨"k3y", ()⟩ rfl⟩

/-- C6: secret provisioning never overwrites a non-empty persisted secret. When
the fetched basic setting has a non-empty SecretKey, getOrUpsertInstanceBasicSetting
calls the store once, for the fetch, performs no upsert, leaves the store in the
state the fetch left it, and returns the fetched setting unchanged; in production
mode NewServer then takes that SecretKey as the Secret, and with a fetch that leaves
the store state as it was, a second resolution from the resulting state returns the
same Secret. -/
theorem C6_secret_not_overwritten {σ ρ : Type} (store : Store σ ρ) (newUUID : String)
    (st st1 : σ) (b : InstanceBasicSetting ρ)
    (hget : store.GetInstanceBasicSetting st = (.ok b, st1)) (hne : b.SecretKey ≠ "") :
    getOrUpsertInstanceBasicSetting store newUUID st = (.ok (some b), st1, [.storeGet]) ∧
      (∀ (env : ServerEnv σ ρ) (profile : Profile),
        env.store = store → profile.Mode = "prod" → env.registerGateway = none →
        ∃ srv effects, NewServer env profile st = (.ok srv, st1, effects) ∧
          srv.Secret = b.SecretKey ∧
          ∀ key secretKey, Effect.storeUpsert key secretKey ∉ effects) ∧
      (st1 = st →
        ∀ (env env2 : ServerEnv σ ρ) (profile profile2 : Profile),
          env.store = store → profile.Mode = "prod" → env.registerGateway = none →
          env2.store = store → profile2.Mode = "prod" → env2.registerGateway = none →
          ∃ srv srv2 effects2,
            (NewServer env profile st).1 = .ok srv ∧
            NewServer env2 profile2 (NewServer env profile st).2.1 = (.ok srv2, st, effects2) ∧
            srv.Secret = b.SecretKey ∧ srv2.Secret = b.SecretKey) := by
  have hG : ∀ uuid, getOrUpsertInstanceBasicSetting store uuid st =
      (.ok (some b), st1, [.storeGet]) := by
    intro uuid
    unfold getOrUpsertInstanceBasicSetting
    rw [hget]
    simp [hne]
  have hprod : ∀ (env : ServerEnv σ ρ) (profile : Profile),
      env.store = store → profile.Mode = "prod" → env.registerGateway = none →
      ∃ srv effects, NewServer env profile st = (.ok srv, st1, effects) ∧
        srv.Secret = b.SecretKey ∧
        ∀ key secretKey, Effect.storeUpsert key secretKey ∉ effects := by
    intro env profile hs hm hR
    have hG2 := hG env.newUUID
    rw [← hs] at hG2
    obtain ⟨srv, effects, h⟩ :=
      NewServer_ok_of_provision_ok env profile st st1 (some b) _ hG2 hR (fun _ => by simp)
    obtain ⟨⟨setting, calls, hG3, hp, _, heff⟩, _, _⟩ :=
      NewServer_ok_inv env profile st st1 srv effects h
    rw [hG2] at hG3
    simp only [Prod.mk.injEq, Except.ok.injEq] at hG3
    obtain ⟨hset, -, hcalls⟩ := hG3
    obtain ⟨b2, hb2, hsec⟩ := hp hm
    rw [← hset] at hb2
    cases hb2
    refine ⟨srv, effects, h, hsec, ?_⟩
    intro key secretKey hmem
    rcases heff _ hmem with hc | ⟨msg, hmsg⟩
    · rw [← hcalls] at hc
      simp at hc
    · exact Effect.noConfusion hmsg
  refine ⟨hG newUUID, hprod, ?_⟩
  intro hst env env2 profile profile2 hs hm hR hs2 hm2 hR2
  subst hst
  obtain ⟨srv, effects, h, hsec, -⟩ := hprod env profile hs hm hR
  obtain ⟨srv2, effects2, h2, hsec2, -⟩ := hprod env2 profile2 hs2 hm2 hR2
  refine ⟨srv, srv2, effects2, ?_, ?_, hsec, hsec2⟩
  · rw [h]
  · rw [h]
    exact h2

/-- C6 at the in-memory store holding the secret "k3y": only the fetch is
performed, the setting comes back as stored, and the production Server carries
"k3y". -/
theorem C6_secret_not_overwritten_witness :
    getOrUpsertInstanceBasicSetting (Store.inMemory none none)
        "6ba7b810-9dad-11d1-80b4-00c04fd430c8" ⟨"k3y", ()⟩ =
      (.ok (some ⟨"k3y", ()⟩), ⟨"k3y", ()⟩, [.storeGet]) ∧
    ∃ srv effects, NewServer (ServerEnv.inMemory none none) prodProfile ⟨"k3y", ()⟩ =
        (.ok srv, ⟨"k3y", ()⟩, effects) ∧ srv.Secret = "k3y" ∧
      ∀ key secretKey, Effect.storeUpsert key secretKey ∉ effects :=
  ⟨(C6_secret_not_overwritten (Store.inMemory none none) "6ba7b810-9dad-11d1-80b4-00c04fd430c8"
      ⟨"k3y", ()⟩ ⟨"k3y", ()⟩ ⟨"k3y", ()⟩ rfl (by decide)).1,
    (C6_secret_not_overwritten (Store.inMemory none none) "6ba7b810-9dad-11d1-80b4-00c04fd430c8"
      ⟨"k3y", ()⟩ ⟨"k3y", ()⟩ ⟨"k3y", ()⟩ rfl (by decide)).2.1
      (ServerEnv.inMemory none none) prodProfile rfl rfl rfl⟩

/-- In production mode an empty persisted secret is replaced by the fresh UUID,
which the store then holds. -/
theorem NewServer_prod_provisions_empty_secret :
    ∃ srv effects, NewServer (ServerEnv.inMemory none none) prodProfile ⟨"", ()⟩ =
        (.ok srv, ⟨"6ba7b810-9dad-11d1-80b4-00c04fd430c8", ()⟩, effects) ∧
      srv.Secret = "6ba7b810-9dad-11d1-80b4-00c04fd430c8" ∧
      effects = [.storeGet, .storeUpsert .BASIC "6ba7b810-9dad-11d1-80b4-00c04fd430c8"] :=
  ⟨_, _, rfl, rfl, rfl⟩

/-! ## Claim about the installed configuration -/

/-- C10: whatever LoadConfig returns (a read error, a parse error, or a Config,
valid or not), the Config of a Server that NewServer returns passes ValidateConfig:
it is the loaded Config when that one loads and validates, and the default Config
otherwise, and the default Config validates. -/
theorem C10_installed_config_valid {σ ρ : Type} (env : ServerEnv σ ρ) (profile : Profile)
    (st st1 : σ) (srv : Server) (effects : List Effect)
    (h : NewServer env profile st = (.ok srv, st1, effects)) :
    ValidateConfig (some srv.Config) = none ∧
      ((∃ cfg, LoadConfig env.config profile.Data = .ok cfg ∧
          ValidateConfig (some cfg) = none ∧ srv.Config = cfg) ∨
        srv.Config = GetDefaultConfig) ∧
      ValidateConfig (some GetDefaultConfig) = none := by
  obtain ⟨_, _, hcfg⟩ := NewServer_ok_inv env profile st st1 srv effects h
  refine ⟨?_, hcfg, ValidateConfig_GetDefaultConfig⟩
  rcases hcfg with ⟨cfg, _, hv, hc⟩ | hd
  · rw [hc]; exact hv
  · rw [hd]; exact ValidateConfig_GetDefaultConfig

/-- C10 at a `config.json` with a duplicate template ID: the document loads, fails
validation, and the Server gets the default Config, which validates. -/
theorem C10_installed_config_valid_witness :
    ValidateConfig (some documentDuplicateID) ≠ none ∧
      ValidateConfig
        (some (Server.mk "usememos" devProfile GetDefaultConfig []).Config) = none :=
  ⟨by decide,
    (C10_installed_config_valid ServerEnv.duplicateID devProfile ⟨"k3y", ()⟩ ⟨"k3y", ()⟩
      (Server.mk "usememos" devProfile GetDefaultConfig []) _ rfl).1⟩

/-! ## Claims about startup and shutdown -/

/-- The cancel loop calls the non-nil entries, each once, in list order. -/
theorem Server.Shutdown.cancelAll_eq (funcs : List (Option CancelFunc)) :
    Server.Shutdown.cancelAll funcs = (funcs.filterMap id).map Effect.cancel := by
  induction funcs with
  | nil => rfl
  | cons f rest ih =>
    cases f with
    | none => simpa [Server.Shutdown.cancelAll] using ih
    | some c => simpa [Server.Shutdown.cancelAll] using ih

/-- C7: for every list of retained cancel functions, the empty one included, and
whether the serving-layer shutdown and the store Close fail or succeed, the steps
of one call to Shutdown are, in this order: each retained (non-nil) cancel function
once per registration, in registration order; then the serving-layer shutdown,
once; then the store Close, once and last. In particular a list of registered
functions is cancelled as it stands, and the function registered by Start is
cancelled once by a later Shutdown. The whole trace is: the timeout context and a
log line, the cancels, the serving-layer shutdown, a log line if it failed, the
store Close, a log line if it failed, a closing log line and the release of the
timeout context; so nothing but log lines and that release follows Close, and
nothing but the timeout context and a log line precedes the first cancel. -/
theorem C7_Shutdown_order (s : Server) (echoErr closeErr : Option String) :
    (s.Shutdown echoErr closeErr).filter Effect.isShutdownStep =
        (s.runnerCancelFuncs.filterMap id).map Effect.cancel ++ [.echoShutdown, .storeClose] ∧
      (s.Shutdown echoErr closeErr).count .echoShutdown = 1 ∧
      (s.Shutdown echoErr closeErr).count .storeClose = 1 ∧
      (∀ f, (s.Shutdown echoErr closeErr).count (.cancel f) = s.runnerCancelFuncs.count (some f)) ∧
      (∀ funcs : List CancelFunc, s.runnerCancelFuncs = funcs.map some →
        (s.Shutdown echoErr closeErr).filter Effect.isShutdownStep =
          funcs.map Effect.cancel ++ [.echoShutdown, .storeClose]) ∧
      (∀ s3Cancel, s.runnerCancelFuncs = [] →
        ((s.Start none s3Cancel).2.1.Shutdown echoErr closeErr).filter Effect.isShutdownStep =
          [.cancel s3Cancel, .echoShutdown, .storeClose]) ∧
      s.Shutdown echoErr closeErr =
        [.withTimeout 10, .log .info "server shutting down"] ++
        (s.runnerCancelFuncs.filterMap id).map Effect.cancel ++
        [.echoShutdown] ++
        (if echoErr.isSome then [.log .error "failed to shutdown server"] else []) ++
        [.storeClose] ++
        (if closeErr.isSome then [.log .error "failed to close database"] else []) ++
        [.log .info "memos stopped properly", .timeoutCancel] ∧
      (∃ before after, s.Shutdown echoErr closeErr = before ++ .storeClose :: after ∧
        Effect.storeClose ∉ before ∧
        (∀ e ∈ after, (∃ level msg, e = .log level msg) ∨ e = .timeoutCancel) ∧
        after.getLast? = some .timeoutCancel) ∧
      (∀ e ∈ s.Shutdown echoErr closeErr, e.isShutdownStep = false →
        (∃ level msg, e = .log level msg) ∨ e = .withTimeout 10 ∨ e = .timeoutCancel) := by
  have hfilter : ∀ l : List CancelFunc,
      (l.map Effect.cancel).filter Effect.isShutdownStep = l.map Effect.cancel := by
    intro l
    induction l with
    | nil => rfl
    | cons c rest ih => simp [List.filter_cons, Effect.isShutdownStep, ih]
  have hmain : ∀ t : Server, (t.Shutdown echoErr closeErr).filter Effect.isShutdownStep =
      (t.runnerCancelFuncs.filterMap id).map Effect.cancel ++ [.echoShutdown, .storeClose] := by
    intro t
    unfold Server.Shutdown
    rw [Server.Shutdown.cancelAll_eq]
    cases echoErr <;> cases closeErr <;>
      simp [List.filter_cons, List.filter_append, Effect.isShutdownStep, hfilter]
  have hcount : ∀ (l : List (Option CancelFunc)) (e : Effect),
      (∀ f, e ≠ .cancel f) → ((l.filterMap id).map Effect.cancel).count e = 0 := by
    intro l e he
    rw [List.count_eq_zero]
    intro hmem
    obtain ⟨f, _, hf⟩ := List.mem_map.1 hmem
    exact he f hf.symm
  have htrace : s.Shutdown echoErr closeErr =
      [.withTimeout 10, .log .info "server shutting down"] ++
      (s.runnerCancelFuncs.filterMap id).map Effect.cancel ++
      [.echoShutdown] ++
      (if echoErr.isSome then [.log .error "failed to shutdown server"] else []) ++
      [.storeClose] ++
      (if closeErr.isSome then [.log .error "failed to close database"] else []) ++
      [.log .info "memos stopped properly", .timeoutCancel] := by
    unfold Server.Shutdown
    rw [Server.Shutdown.cancelAll_eq]
    cases echoErr <;> cases closeErr <;> rfl
  have hcancel : ∀ e ∈ (s.runnerCancelFuncs.filterMap id).map Effect.cancel,
      ∃ f, e = .cancel f := by
    intro e he
    obtain ⟨f, _, hf⟩ := List.mem_map.1 he
    exact ⟨f, hf.symm⟩
  refine ⟨hmain s, ?_, ?_, ?_, ?_, ?_, htrace, ?_, ?_⟩
  · unfold Server.Shutdown
    rw [Server.Shutdown.cancelAll_eq]
    cases echoErr <;> cases closeErr <;>
      simp [List.count_cons, List.count_append, hcount]
  · unfold Server.Shutdown
    rw [Server.Shutdown.cancelAll_eq]
    cases echoErr <;> cases closeErr <;>
      simp [List.count_cons, List.count_append, hcount]
  · intro f
    have hc : ∀ l : List (Option CancelFunc),
        ((l.filterMap id).map Effect.cancel).count (.cancel f) = l.count (some f) := by
      intro l
      induction l with
      | nil => rfl
      | cons x rest ih =>
        cases x with
        | none => simpa [List.count_cons] using ih
        | some c =>
          by_cases hcf : c = f
          · subst hcf
            simp [List.count_cons, ih]
          · have hne : f ≠ c := fun h => hcf h.symm
            simp [List.count_cons, ih, hcf, hne]
    unfold Server.Shutdown
    rw [Server.Shutdown.cancelAll_eq]
    cases echoErr <;> cases closeErr <;>
      simp [List.count_cons, List.count_append, hc]
  · intro funcs hfuncs
    rw [hmain s, hfuncs]
    simp [List.filterMap_map]
  · intro s3Cancel hnil
    rw [hmain]
    simp [Server.Start, Server.StartBackgroundRunners, hnil]
  · refine ⟨[.withTimeout 10, .log .info "server shutting down"] ++
        (s.runnerCancelFuncs.filterMap id).map Effect.cancel ++
        [.echoShutdown] ++
        (if echoErr.isSome then [.log .error "failed to shutdown server"] else []),
      (if closeErr.isSome then [.log .error "failed to close database"] else []) ++
        [.log .info "memos stopped properly", .timeoutCancel], ?_, ?_, ?_, ?_⟩
    · rw [htrace]
      simp
    · intro hmem
      simp only [List.mem_append, List.mem_cons, List.mem_singleton, List.not_mem_nil,
        or_false] at hmem
      rcases hmem with ((h | h) | h) | h
      · rcases h with h | h <;> exact Effect.noConfusion h
      · obtain ⟨f, hf⟩ := hcancel _ h
        exact Effect.noConfusion hf
      · exact Effect.noConfusion h
      · cases echoErr <;> simp at h
    · intro e he
      cases closeErr <;> simp at he <;> aesop
    · cases closeErr <;> simp
  · intro e he hstep
    rw [htrace] at he
    simp only [List.mem_append, List.mem_cons, List.mem_singleton, List.not_mem_nil,
      or_false] at he
    rcases he with (((((h | h) | h) | h) | h) | h) | h
    · rcases h with h | h
      · exact Or.inr (Or.inl h)
      · exact Or.inl ⟨_, _, h⟩
    · obtain ⟨f, hf⟩ := hcancel _ h
      rw [hf] at hstep
      simp [Effect.isShutdownStep] at hstep
    · rw [h] at hstep
      simp [Effect.isShutdownStep] at hstep
    · cases echoErr
      · simp at h
      · simp at h
        exact Or.inl ⟨_, _, h⟩
    · rw [h] at hstep
      simp [Effect.isShutdownStep] at hstep
    · cases closeErr
      · simp at h
      · simp at h
        exact Or.inl ⟨_, _, h⟩
    · rcases h with h | h
      · exact Or.inl ⟨_, _, h⟩
      · exact Or.inr (Or.inr h)

/-- C9, as stated, fails: in the trace of a successful Start, the accept loop is
launched on the opened listener first and the run-once entry point of the runner is
invoked after it, not before. -/
theorem C9_Start_order_counterexample :
    (devServer.Start none 1).2.2 =
        [.listen "tcp" ":8081", .goEchoStart ":8081", .withCancel 1, .newRunner, .runOnce,
          .goRun 1, .log .info "background runners started"] ∧
      OccursBefore (.goEchoStart ":8081") .runOnce (devServer.Start none 1).2.2 ∧
      ¬ OccursBefore .runOnce (.goEchoStart ":8081") (devServer.Start none 1).2.2 := by
  decide

/-- C9, amended: in the startup sequence performed by Start, once the listener is
open the accept loop is launched on it first; the run-once entry point of the
background runner is invoked, and returns, after that launch, and before the
continuous loop of the runner is launched and before Start returns. -/
theorem C9_Start_order (s : Server) (s3Cancel : CancelFunc) :
    ∃ network address,
      s.Start none s3Cancel =
        (none, { s with runnerCancelFuncs := s.runnerCancelFuncs ++ [some s3Cancel] },
          [.listen network address, .goEchoStart address, .withCancel s3Cancel, .newRunner,
            .runOnce, .goRun s3Cancel, .log .info "background runners started"]) ∧
      OccursBefore (.listen network address) (.goEchoStart address) (s.Start none s3Cancel).2.2 ∧
      OccursBefore (.goEchoStart address) .runOnce (s.Start none s3Cancel).2.2 ∧
      OccursBefore .runOnce (.goRun s3Cancel) (s.Start none s3Cancel).2.2 ∧
      ¬ OccursBefore .runOnce (.goEchoStart address) (s.Start none s3Cancel).2.2 := by
  by_cases hu : s.Profile.UNIXSock.length = 0
  · refine ⟨"tcp", s.Profile.Addr ++ ":" ++ toString s.Profile.Port, ?_⟩
    have h : s.Start none s3Cancel =
        (none, { s with runnerCancelFuncs := s.runnerCancelFuncs ++ [some s3Cancel] },
          [.listen "tcp" (s.Profile.Addr ++ ":" ++ toString s.Profile.Port),
            .goEchoStart (s.Profile.Addr ++ ":" ++ toString s.Profile.Port),
            .withCancel s3Cancel, .newRunner,
            .runOnce, .goRun s3Cancel, .log .info "background runners started"]) := by
      simp [Server.Start, Server.StartBackgroundRunners, hu]
    rw [h]
    simp [OccursBefore, List.indexOf_cons]
  · refine ⟨"unix", s.Profile.UNIXSock, ?_⟩
    have h : s.Start none s3Cancel =
        (none, { s with runnerCancelFuncs := s.runnerCancelFuncs ++ [some s3Cancel] },
          [.listen "unix" s.Profile.UNIXSock, .goEchoStart s.Profile.UNIXSock,
            .withCancel s3Cancel, .newRunner,
            .runOnce, .goRun s3Cancel, .log .info "background runners started"]) := by
      simp [Server.Start, Server.StartBackgroundRunners, hu]
    rw [h]
    simp [OccursBefore, List.indexOf_cons]

/-! ## The replacement scan leaves no occurrence of the token behind -/

namespace strings

/-- Stepping over `k` characters of a match is dropping them. -/
theorem ReplaceAll.go_skip (old new : List Char) :
    ∀ (k : Nat) (s : List Char),
      ReplaceAll.go old new k s = ReplaceAll.go old new 0 (s.drop k) := by
  intro k
  induction k with
  | zero => intro s; rfl
  | succ k ih =>
    intro s
    cases s with
    | nil => simp [ReplaceAll.go]
    | cons c cs => simpa [ReplaceAll.go] using ih cs

/-- No occurrence of `old` can start before a copy of `new` and reach into it,
when `new` holds a character that `old` has not and lacks the last one of `old`. -/
theorem prefix_across_new_absurd (old new w r : List Char) (z : Char)
    (hlast : old.getLast? = some z) (hz : z ∉ new) (hout : ∃ c ∈ new, c ∉ old)
    (hw : w.length < old.length) (h : old <+: w ++ (new ++ r)) : False := by
  by_cases hlen : w.length + new.length ≤ old.length
  · have hpre : w ++ new <+: old := by
      refine List.prefix_of_prefix_length_le ?_ h (by simpa using hlen)
      rw [← List.append_assoc]
      exact List.prefix_append _ _
    obtain ⟨c, hc, hco⟩ := hout
    exact hco (hpre.subset (List.mem_append_right _ hc))
  · have hpre : old <+: w ++ new := by
      refine List.prefix_of_prefix_length_le h ?_ (by simp; omega)
      rw [← List.append_assoc]
      exact List.prefix_append _ _
    have hwo : w <+: old :=
      List.prefix_of_prefix_length_le (List.prefix_append _ _) hpre (le_of_lt hw)
    obtain ⟨t, rfl⟩ := hwo
    have ht : t <+: new := (List.prefix_append_right_inj w).1 hpre
    have htne : t ≠ [] := by
      rintro rfl
      simp at hw
    rw [List.getLast?_append] at hlast
    cases hl : t.getLast? with
    | none => exact htne (List.getLast?_eq_none_iff.1 hl)
    | some y =>
      rw [hl] at hlast
      simp only [Option.or_some, Option.some.injEq] at hlast
      subst hlast
      exact hz (ht.subset (List.mem_of_getLast?_eq_some hl))

/-- A prefix `old` of the output, read after already copied characters `w`, is a
prefix of the input read after `w`. -/
theorem ReplaceAll.go_prefix (old new : List Char) (z : Char)
    (hlast : old.getLast? = some z) (hz : z ∉ new) (hout : ∃ c ∈ new, c ∉ old) :
    ∀ (s w : List Char), old <+: w ++ ReplaceAll.go old new 0 s → old <+: w ++ s := by
  intro s
  induction s with
  | nil => intro w h; simpa [ReplaceAll.go] using h
  | cons c cs ih =>
    intro w h
    by_cases hm : old.isPrefixOf (c :: cs) = true
    · simp only [ReplaceAll.go, hm, if_true] at h
      by_cases hw : w.length < old.length
      · exact (prefix_across_new_absurd old new w _ z hlast hz hout hw h).elim
      · have hwl : old.length ≤ w.length := not_lt.1 hw
        have h1 : old <+: w :=
          List.prefix_of_prefix_length_le h (List.prefix_append _ _) hwl
        exact h1.trans (List.prefix_append _ _)
    · simp only [ReplaceAll.go, hm] at h
      have h2 : old <+: (w ++ [c]) ++ ReplaceAll.go old new 0 cs := by
        simpa using h
      simpa using ih (w ++ [c]) h2

/-- An occurrence of `old` in `new ++ r` lies in `r` when `new` lacks the first
character of `old`. -/
theorem infix_after_new (old new r : List Char) (a : Char)
    (hhead : old.head? = some a) (ha : a ∉ new) (h : old <:+: new ++ r) : old <:+: r := by
  induction new with
  | nil => simpa using h
  | cons x rest ih =>
    rw [List.cons_append, List.infix_cons_iff] at h
    rcases h with h | h
    · exfalso
      cases old with
      | nil => simp at hhead
      | cons o os =>
        simp only [List.head?_cons, Option.some.injEq] at hhead
        subst hhead
        rw [List.cons_prefix_cons] at h
        exact ha (by simp [h.1])
    · exact ih (fun hmem => ha (List.mem_cons_of_mem _ hmem)) h

/-- The output of the scan holds no occurrence of `old`, when `new` lacks the first
and the last character of `old` and holds a character foreign to `old`. -/
theorem ReplaceAll.go_no_infix (old new : List Char) (a z : Char)
    (hhead : old.head? = some a) (ha : a ∉ new)
    (hlast : old.getLast? = some z) (hz : z ∉ new) (hout : ∃ c ∈ new, c ∉ old) :
    ∀ (n : Nat) (s : List Char), s.length ≤ n → ¬ old <:+: ReplaceAll.go old new 0 s := by
  intro n
  induction n with
  | zero =>
    intro s hs h
    have : s = [] := List.length_eq_zero.1 (Nat.le_zero.1 hs)
    subst this
    simp only [ReplaceAll.go] at h
    have := List.infix_nil.1 h
    subst this
    simp at hhead
  | succ n ih =>
    intro s hs h
    cases s with
    | nil =>
      simp only [ReplaceAll.go] at h
      have := List.infix_nil.1 h
      subst this
      simp at hhead
    | cons c cs =>
      by_cases hm : old.isPrefixOf (c :: cs) = true
      · simp only [ReplaceAll.go, hm, if_true] at h
        rw [ReplaceAll.go_skip] at h
        refine ih (cs.drop (old.length - 1)) ?_ (infix_after_new old new _ a hhead ha h)
        simp only [List.length_drop, List.length_cons] at hs ⊢
        omega
      · simp only [ReplaceAll.go, hm] at h
        simp only [Bool.false_eq_true, if_false] at h
        rw [List.infix_cons_iff] at h
        rcases h with h | h
        · have h2 : old <+: [c] ++ ReplaceAll.go old new 0 cs := by simpa using h
          have h3 := ReplaceAll.go_prefix old new z hlast hz hout cs [c] h2
          exact hm (List.isPrefixOf_iff_prefix.2 (by simpa using h3))
        · exact ih cs (by simpa using hs) h

/-- ReplaceAll leaves no occurrence of a non-empty `old` in its result, when `new`
lacks the first and the last character of `old` and holds a character foreign to
`old`. -/
theorem ReplaceAll_not_Contains (s old new : String) (a z : Char)
    (hhead : old.data.head? = some a) (ha : a ∉ new.data)
    (hlast : old.data.getLast? = some z) (hz : z ∉ new.data)
    (hout : ∃ c ∈ new.data, c ∉ old.data) :
    ¬ Contains (ReplaceAll s old new) old := by
  have hne : old ≠ new := by
    rintro rfl
    obtain ⟨c, hc, hco⟩ := hout
    exact hco hc
  have hne2 : old.data ≠ [] := by
    intro h
    rw [h] at hhead
    simp at hhead
  unfold Contains ReplaceAll
  rw [if_neg hne, if_neg hne2]
  exact ReplaceAll.go_no_infix old.data new.data a z hhead ha hlast hz hout _ _ le_rfl

/-- Text without an occurrence of a non-empty `old` passes the scan unchanged. -/
theorem ReplaceAll.go_of_not_infix (old new : List Char) :
    ∀ s : List Char, ¬ old <:+: s → ReplaceAll.go old new 0 s = s := by
  intro s
  induction s with
  | nil => intro _; rfl
  | cons c cs ih =>
    intro h
    have hm : ¬ old.isPrefixOf (c :: cs) = true := fun hp =>
      h (List.isPrefixOf_iff_prefix.1 hp).isInfix
    have hcs : ¬ old <:+: cs := fun hi => h (List.infix_cons_iff.2 (Or.inr hi))
    simp only [ReplaceAll.go, hm, Bool.false_eq_true, if_false, ih hcs]

/-- The scan at the first occurrence of `old`: what precedes it is copied, the
occurrence becomes `new`, and the scan goes on after it. -/
theorem ReplaceAll.go_split (old new : List Char) (hold : old ≠ []) (post : List Char) :
    ∀ pre : List Char, ¬ old <:+: pre ++ old.dropLast →
      ReplaceAll.go old new 0 (pre ++ old ++ post) =
        pre ++ new ++ ReplaceAll.go old new 0 post := by
  intro pre
  induction pre with
  | nil =>
    intro _
    obtain ⟨a, t, rfl⟩ := List.exists_cons_of_ne_nil hold
    have hp : (a :: t).isPrefixOf (a :: (t ++ post)) = true :=
      List.isPrefixOf_iff_prefix.2 ⟨post, by simp⟩
    simp only [List.nil_append, List.cons_append, ReplaceAll.go, hp, if_true]
    rw [ReplaceAll.go_skip]
    simp
  | cons c p ih =>
    intro h
    have hp : ¬ old <:+: p ++ old.dropLast := fun hi =>
      h (by rw [List.cons_append]; exact List.infix_cons_iff.2 (Or.inr hi))
    have hm : ¬ old.isPrefixOf (c :: (p ++ old ++ post)) = true := by
      intro hpre
      have h1 : old <+: (c :: p ++ old.dropLast) ++ (old.drop (old.length - 1) ++ post) := by
        have := List.isPrefixOf_iff_prefix.1 hpre
        have hsplit : c :: (p ++ old ++ post) =
            (c :: p ++ old.dropLast) ++ (old.drop (old.length - 1) ++ post) := by
          have hd : old.dropLast ++ old.drop (old.length - 1) = old := by
            rw [List.dropLast_eq_take]
            exact List.take_append_drop _ _
          calc c :: (p ++ old ++ post) = c :: p ++ (old ++ post) := by simp
            _ = c :: p ++ ((old.dropLast ++ old.drop (old.length - 1)) ++ post) := by rw [hd]
            _ = _ := by simp
        rw [hsplit] at this
        exact this
      have hlen : old.length ≤ (c :: p ++ old.dropLast).length := by
        simp only [List.length_append, List.length_cons, List.length_dropLast]
        omega
      exact h (List.prefix_of_prefix_length_le h1 (List.prefix_append _ _) hlen).isInfix
    simp only [List.cons_append, List.append_assoc] at hm ⊢
    have hrec := ih hp
    simp only [List.append_assoc] at hrec
    simp only [ReplaceAll.go, hm, Bool.false_eq_true, if_false, hrec]

/-- ReplaceAll returns a string without an occurrence of a non-empty `old` as it is. -/
theorem ReplaceAll_of_not_Contains (s old new : String) (hold : old.data ≠ [])
    (h : ¬ Contains s old) : ReplaceAll s old new = s := by
  unfold ReplaceAll
  by_cases hne : old = new
  · rw [if_pos hne]
  · rw [if_neg hne, if_neg hold, ReplaceAll.go_of_not_infix old.data new.data s.data h]

/-- ReplaceAll at the first occurrence of `old`: the text before it is kept, the
occurrence becomes `new`, and the rest is replaced in turn. -/
theorem ReplaceAll_append (pre post old new : String) (hne : old ≠ new) (hold : old.data ≠ [])
    (hfirst : ¬ old.data <:+: pre.data ++ old.data.dropLast) :
    ReplaceAll (pre ++ old ++ post) old new = pre ++ new ++ ReplaceAll post old new := by
  unfold ReplaceAll
  rw [if_neg hne, if_neg hold, if_neg hne, if_neg hold]
  apply String.ext
  simp only [String.data_append]
  exact ReplaceAll.go_split old.data new.data hold post.data pre.data hfirst

end strings

/-! ## The long date holds no brace, and holds a comma -/

namespace time

theorem digitChar_noBrace : ∀ m, m < 10 → NoBrace (Nat.digitChar m) := by
  decide

theorem toDigitsCore_noBrace :
    ∀ (fuel n : Nat) (ds : List Char), (∀ c ∈ ds, NoBrace c) →
      ∀ c ∈ Nat.toDigitsCore 10 fuel n ds, NoBrace c := by
  intro fuel
  induction fuel with
  | zero => intro n ds hds c hc; exact hds c (by simpa [Nat.toDigitsCore] using hc)
  | succ fuel ih =>
    intro n ds hds c hc
    have hd : ∀ x ∈ Nat.digitChar (n % 10) :: ds, NoBrace x := by
      intro x hx
      rcases List.mem_cons.1 hx with rfl | hx
      · exact digitChar_noBrace _ (Nat.mod_lt _ (by decide))
      · exact hds x hx
    unfold Nat.toDigitsCore at hc
    by_cases h0 : n / 10 = 0
    · simp only [h0, if_true] at hc
      exact hd c hc
    · simp only [h0, if_false] at hc
      exact ih (n / 10) _ hd c hc

theorem repr_noBrace (n : Nat) : ∀ c ∈ (Nat.repr n).data, NoBrace c := by
  intro c hc
  exact toDigitsCore_noBrace (n + 1) n [] (by simp) c
    (by simpa [Nat.repr, Nat.toDigits, List.asString] using hc)

theorem appendInt_noBrace (x : Int) (width : Nat) : ∀ c ∈ (appendInt x width).data, NoBrace c := by
  intro c hc
  simp only [appendInt, String.data_append, List.mem_append] at hc
  rcases hc with (hc | hc) | hc
  · by_cases hx : x < 0
    · simp only [hx, if_true] at hc
      have : c = '-' := by simpa using hc
      subst this
      decide
    · simp [hx] at hc
  · have : c = '0' := (List.mem_replicate.1 hc).2
    subst this
    decide
  · exact repr_noBrace _ c hc

theorem weekdayName_noBrace (d : Weekday) : ∀ c ∈ d.String.data, NoBrace c := by
  cases d <;> decide

theorem monthName_noBrace (m : Month) : ∀ c ∈ m.String.data, NoBrace c := by
  cases m <;> decide

/-- The long date holds neither an opening nor a closing brace. -/
theorem Time.FormatLongDate_noBrace (t : Time) : ∀ c ∈ t.FormatLongDate.data, NoBrace c := by
  intro c hc
  simp only [Time.FormatLongDate, String.data_append, List.mem_append] at hc
  rcases hc with (((((hc | hc) | hc) | hc) | hc) | hc) | hc
  · exact weekdayName_noBrace _ c hc
  · revert c; decide
  · exact monthName_noBrace _ c hc
  · revert c; decide
  · exact appendInt_noBrace _ _ c hc
  · revert c; decide
  · exact appendInt_noBrace _ _ c hc

/-- The long date holds a comma, after the name of the weekday. -/
theorem Time.FormatLongDate_comma (t : Time) : ',' ∈ t.FormatLongDate.data := by
  simp only [Time.FormatLongDate, String.data_append, List.mem_append]
  exact Or.inl (Or.inl (Or.inl (Or.inl (Or.inl (Or.inr (by decide))))))

end time

/-! ## Claim about the templates endpoint -/

/-- Replacing the placeholder by a long date leaves no placeholder behind. -/
theorem ReplaceAll_dateToken_not_Contains (content : String) (now : time.Time) :
    ¬ strings.Contains
      (strings.ReplaceAll content "\x7b\x7bDATE\x7d\x7d" now.FormatLongDate)
      "\x7b\x7bDATE\x7d\x7d" := by
  refine strings.ReplaceAll_not_Contains content "\x7b\x7bDATE\x7d\x7d" now.FormatLongDate '\x7b' '\x7d'
    (by decide) ?_ (by decide) ?_ ⟨',', time.Time.FormatLongDate_comma now, by decide⟩
  · intro h
    exact (time.Time.FormatLongDate_noBrace now _ h).1 rfl
  · intro h
    exact (time.Time.FormatLongDate_noBrace now _ h).2 rfl

/-- The date matters: a replacement that is part of the word DATE can complete a
placeholder out of the pieces around a replaced one, although it holds no brace. -/
theorem ReplaceAll_can_rebuild_token :
    strings.Contains
      (strings.ReplaceAll "\x7b\x7bD\x7b\x7bDATE\x7d\x7dTE\x7d\x7d" "\x7b\x7bDATE\x7d\x7d" "A")
      "\x7b\x7bDATE\x7d\x7d" := by
  decide

/-- A long date is not the placeholder. -/
theorem dateToken_ne_FormatLongDate (now : time.Time) :
    "\x7b\x7bDATE\x7d\x7d" ≠ now.FormatLongDate := by
  intro h
  have hmem : '\x7b' ∈ now.FormatLongDate.data := by
    rw [← h]
    decide
  exact (time.Time.FormatLongDate_noBrace now _ hmem).1 rfl

/-- Rendering a content with one placeholder: the date takes its place and the
text around it is kept. -/
theorem ReplaceAll_one_dateToken (pre post : String) (now : time.Time)
    (hpre : ¬ strings.Contains (pre ++ "\x7b\x7bDATE\x7d") "\x7b\x7bDATE\x7d\x7d")
    (hpost : ¬ strings.Contains post "\x7b\x7bDATE\x7d\x7d") :
    strings.ReplaceAll (pre ++ "\x7b\x7bDATE\x7d\x7d" ++ post) "\x7b\x7bDATE\x7d\x7d"
        now.FormatLongDate =
      pre ++ now.FormatLongDate ++ post := by
  rw [strings.ReplaceAll_append pre post _ _ (dateToken_ne_FormatLongDate now) (by decide) ?_,
    strings.ReplaceAll_of_not_Contains post _ _ (by decide) hpost]
  have hd : ("\x7b\x7bDATE\x7d\x7d" : String).data.dropLast = ("\x7b\x7bDATE\x7d" : String).data := by
    decide
  rw [hd, ← String.data_append]
  exact hpre

set_option maxRecDepth 100000 in
/-- The default templates rendered: the date stands where the placeholder stood in
the three templates that have one, and the three others are returned as stored. -/
theorem templatesHandler_default_contents (s : Server) (now : time.Time)
    (hdef : s.Config = GetDefaultConfig) :
    (templatesHandler s now).map Template.Content =
      [
        "# " ++ now.FormatLongDate ++
          "\n\n## Morning\n- \n\n## Afternoon\n- \n\n## Evening\n- \n\n## Notes\n",
        "# Meeting: [Topic]\n\n**Date:** " ++ now.FormatLongDate ++
          "\n**Time:** \n**Attendees:** \n\n## Agenda\n1. \n2. \n3. \n\n## Discussion\n- \n\n## Action Items\n- [ ] \n- [ ] \n- [ ] \n\n## Next Steps\n",
        "# [Recipe Name]\n\n**Prep Time:** \n**Cook Time:** \n**Servings:** \n\n## Ingredients\n- \n- \n- \n\n## Instructions\n1. \n2. \n3. \n\n## Notes\n",
        "# [Project Name]\n\n**Status:** \n**Start Date:** \n**Target Date:** \n\n## Overview\n \n\n## Goals\n- \n- \n- \n\n## Tasks\n- [ ] \n- [ ] \n- [ ] \n\n## Resources\n- \n\n## Notes\n",
        "# [Book Title]\n\n**Author:** \n**Date Started:** \n**Date Finished:** \n**Rating:** ⭐⭐⭐⭐⭐\n\n## Summary\n \n\n## Key Takeaways\n- \n- \n- \n\n## Quotes\n> \n\n## Notes\n",
        "# [Topic/Idea]\n\n**Date:** " ++ now.FormatLongDate ++
          "\n\n## Core Concept\n \n\n## Key Points\n- \n- \n- \n\n## Pros\n- \n- \n\n## Cons\n- \n- \n\n## Next Steps\n- [ ] \n- [ ] \n" ] := by
  have hmap : (templatesHandler s now).map Template.Content =
      GetDefaultConfig.Templates.map (fun t =>
        strings.ReplaceAll t.Content "\x7b\x7bDATE\x7d\x7d" now.FormatLongDate) := by
    simp [templatesHandler, List.map_map, Function.comp_def, hdef]
  rw [hmap]
  have r1 : strings.ReplaceAll
      "# \x7b\x7bDATE\x7d\x7d\n\n## Morning\n- \n\n## Afternoon\n- \n\n## Evening\n- \n\n## Notes\n"
      "\x7b\x7bDATE\x7d\x7d" now.FormatLongDate =
      "# " ++ now.FormatLongDate ++
        "\n\n## Morning\n- \n\n## Afternoon\n- \n\n## Evening\n- \n\n## Notes\n" := by
    have e : ("# \x7b\x7bDATE\x7d\x7d\n\n## Morning\n- \n\n## Afternoon\n- \n\n## Evening\n- \n\n## Notes\n" : String) =
        "# " ++ "\x7b\x7bDATE\x7d\x7d" ++
          "\n\n## Morning\n- \n\n## Afternoon\n- \n\n## Evening\n- \n\n## Notes\n" := by
      decide
    rw [e]
    exact ReplaceAll_one_dateToken _ _ now (by decide) (by decide)
  have r2 : strings.ReplaceAll
      "# Meeting: [Topic]\n\n**Date:** \x7b\x7bDATE\x7d\x7d\n**Time:** \n**Attendees:** \n\n## Agenda\n1. \n2. \n3. \n\n## Discussion\n- \n\n## Action Items\n- [ ] \n- [ ] \n- [ ] \n\n## Next Steps\n"
      "\x7b\x7bDATE\x7d\x7d" now.FormatLongDate =
      "# Meeting: [Topic]\n\n**Date:** " ++ now.FormatLongDate ++
        "\n**Time:** \n**Attendees:** \n\n## Agenda\n1. \n2. \n3. \n\n## Discussion\n- \n\n## Action Items\n- [ ] \n- [ ] \n- [ ] \n\n## Next Steps\n" := by
    have e : ("# Meeting: [Topic]\n\n**Date:** \x7b\x7bDATE\x7d\x7d\n**Time:** \n**Attendees:** \n\n## Agenda\n1. \n2. \n3. \n\n## Discussion\n- \n\n## Action Items\n- [ ] \n- [ ] \n- [ ] \n\n## Next Steps\n" : String) =
        "# Meeting: [Topic]\n\n**Date:** " ++ "\x7b\x7bDATE\x7d\x7d" ++
          "\n**Time:** \n**Attendees:** \n\n## Agenda\n1. \n2. \n3. \n\n## Discussion\n- \n\n## Action Items\n- [ ] \n- [ ] \n- [ ] \n\n## Next Steps\n" := by
      decide
    rw [e]
    exact ReplaceAll_one_dateToken _ _ now (by decide) (by decide)
  have r3 : strings.ReplaceAll
      "# [Recipe Name]\n\n**Prep Time:** \n**Cook Time:** \n**Servings:** \n\n## Ingredients\n- \n- \n- \n\n## Instructions\n1. \n2. \n3. \n\n## Notes\n"
      "\x7b\x7bDATE\x7d\x7d" now.FormatLongDate =
      "# [Recipe Name]\n\n**Prep Time:** \n**Cook Time:** \n**Servings:** \n\n## Ingredients\n- \n- \n- \n\n## Instructions\n1. \n2. \n3. \n\n## Notes\n" :=
    strings.ReplaceAll_of_not_Contains _ _ _ (by decide) (by decide)
  have r4 : strings.ReplaceAll
      "# [Project Name]\n\n**Status:** \n**Start Date:** \n**Target Date:** \n\n## Overview\n \n\n## Goals\n- \n- \n- \n\n## Tasks\n- [ ] \n- [ ] \n- [ ] \n\n## Resources\n- \n\n## Notes\n"
      "\x7b\x7bDATE\x7d\x7d" now.FormatLongDate =
      "# [Project Name]\n\n**Status:** \n**Start Date:** \n**Target Date:** \n\n## Overview\n \n\n## Goals\n- \n- \n- \n\n## Tasks\n- [ ] \n- [ ] \n- [ ] \n\n## Resources\n- \n\n## Notes\n" :=
    strings.ReplaceAll_of_not_Contains _ _ _ (by decide) (by decide)
  have r5 : strings.ReplaceAll
      "# [Book Title]\n\n**Author:** \n**Date Started:** \n**Date Finished:** \n**Rating:** ⭐⭐⭐⭐⭐\n\n## Summary\n \n\n## Key Takeaways\n- \n- \n- \n\n## Quotes\n> \n\n## Notes\n"
      "\x7b\x7bDATE\x7d\x7d" now.FormatLongDate =
      "# [Book Title]\n\n**Author:** \n**Date Started:** \n**Date Finished:** \n**Rating:** ⭐⭐⭐⭐⭐\n\n## Summary\n \n\n## Key Takeaways\n- \n- \n- \n\n## Quotes\n> \n\n## Notes\n" :=
    strings.ReplaceAll_of_not_Contains _ _ _ (by decide) (by decide)
  have r6 : strings.ReplaceAll
      "# [Topic/Idea]\n\n**Date:** \x7b\x7bDATE\x7d\x7d\n\n## Core Concept\n \n\n## Key Points\n- \n- \n- \n\n## Pros\n- \n- \n\n## Cons\n- \n- \n\n## Next Steps\n- [ ] \n- [ ] \n"
      "\x7b\x7bDATE\x7d\x7d" now.FormatLongDate =
      "# [Topic/Idea]\n\n**Date:** " ++ now.FormatLongDate ++
        "\n\n## Core Concept\n \n\n## Key Points\n- \n- \n- \n\n## Pros\n- \n- \n\n## Cons\n- \n- \n\n## Next Steps\n- [ ] \n- [ ] \n" := by
    have e : ("# [Topic/Idea]\n\n**Date:** \x7b\x7bDATE\x7d\x7d\n\n## Core Concept\n \n\n## Key Points\n- \n- \n- \n\n## Pros\n- \n- \n\n## Cons\n- \n- \n\n## Next Steps\n- [ ] \n- [ ] \n" : String) =
        "# [Topic/Idea]\n\n**Date:** " ++ "\x7b\x7bDATE\x7d\x7d" ++
          "\n\n## Core Concept\n \n\n## Key Points\n- \n- \n- \n\n## Pros\n- \n- \n\n## Cons\n- \n- \n\n## Next Steps\n- [ ] \n- [ ] \n" := by
      decide
    rw [e]
    exact ReplaceAll_one_dateToken _ _ now (by decide) (by decide)
  simp only [GetDefaultConfig, List.map_cons, List.map_nil, r1, r2, r3, r4, r5, r6]

/-- C8: for every Server (hence every resolved Config) and every current date,
printed in the long date format of the handler, the rendering of /api/templates
returns one template per stored template, in the same order and with the same ID,
Name, Description and Icon, and no returned content contains the literal
placeholder of the date; when no config file is present the Server that NewServer
returns renders exactly the 6 templates daily-notes, meeting-notes, food-recipe,
project-plan, book-notes, idea-brainstorm. Each returned content is the stored
content with its placeholders replaced by the date: a stored content without
placeholder is returned as it is, and a stored content is rendered up to and
including its first placeholder as the text before it followed by the date, the
rest being rendered in turn; the six default contents are returned with the date
in the place of the placeholder. -/
theorem C8_templates_rendering (s : Server) (now : time.Time) :
    (templatesHandler s now).length = s.Config.Templates.length ∧
      (templatesHandler s now).map (fun t => (t.ID, t.Name, t.Description, t.Icon)) =
        s.Config.Templates.map (fun t => (t.ID, t.Name, t.Description, t.Icon)) ∧
      (∀ t ∈ templatesHandler s now, ¬ strings.Contains t.Content "\x7b\x7bDATE\x7d\x7d") ∧
      (∀ {σ ρ : Type} (env : ServerEnv σ ρ) (profile : Profile) (st st1 : σ) (srv : Server)
          (effects : List Effect),
        env.config.file profile.Data = .notExist →
        NewServer env profile st = (.ok srv, st1, effects) →
        (templatesHandler srv now).length = 6 ∧
          (templatesHandler srv now).map Template.ID =
            ["daily-notes", "meeting-notes", "food-recipe", "project-plan", "book-notes",
              "idea-brainstorm"] ∧
          ∀ t ∈ templatesHandler srv now, ¬ strings.Contains t.Content "\x7b\x7bDATE\x7d\x7d") ∧
      List.Forall₂
        (fun stored returned : Template =>
          returned.ID = stored.ID ∧ returned.Name = stored.Name ∧
          returned.Description = stored.Description ∧ returned.Icon = stored.Icon ∧
          returned.Content =
            strings.ReplaceAll stored.Content "\x7b\x7bDATE\x7d\x7d" now.FormatLongDate ∧
          (¬ strings.Contains stored.Content "\x7b\x7bDATE\x7d\x7d" →
            returned.Content = stored.Content) ∧
          (∀ pre post : String, stored.Content = pre ++ "\x7b\x7bDATE\x7d\x7d" ++ post →
            ¬ strings.Contains (pre ++ "\x7b\x7bDATE\x7d") "\x7b\x7bDATE\x7d\x7d" →
            returned.Content = pre ++ now.FormatLongDate ++
              strings.ReplaceAll post "\x7b\x7bDATE\x7d\x7d" now.FormatLongDate))
        s.Config.Templates (templatesHandler s now) ∧
      (∀ {σ ρ : Type} (env : ServerEnv σ ρ) (profile : Profile) (st st1 : σ) (srv : Server)
          (effects : List Effect),
        env.config.file profile.Data = .notExist →
        NewServer env profile st = (.ok srv, st1, effects) →
        (templatesHandler srv now).map Template.Content =
          [
            "# " ++ now.FormatLongDate ++
              "\n\n## Morning\n- \n\n## Afternoon\n- \n\n## Evening\n- \n\n## Notes\n",
            "# Meeting: [Topic]\n\n**Date:** " ++ now.FormatLongDate ++
              "\n**Time:** \n**Attendees:** \n\n## Agenda\n1. \n2. \n3. \n\n## Discussion\n- \n\n## Action Items\n- [ ] \n- [ ] \n- [ ] \n\n## Next Steps\n",
            "# [Recipe Name]\n\n**Prep Time:** \n**Cook Time:** \n**Servings:** \n\n## Ingredients\n- \n- \n- \n\n## Instructions\n1. \n2. \n3. \n\n## Notes\n",
            "# [Project Name]\n\n**Status:** \n**Start Date:** \n**Target Date:** \n\n## Overview\n \n\n## Goals\n- \n- \n- \n\n## Tasks\n- [ ] \n- [ ] \n- [ ] \n\n## Resources\n- \n\n## Notes\n",
            "# [Book Title]\n\n**Author:** \n**Date Started:** \n**Date Finished:** \n**Rating:** ⭐⭐⭐⭐⭐\n\n## Summary\n \n\n## Key Takeaways\n- \n- \n- \n\n## Quotes\n> \n\n## Notes\n",
            "# [Topic/Idea]\n\n**Date:** " ++ now.FormatLongDate ++
              "\n\n## Core Concept\n \n\n## Key Points\n- \n- \n- \n\n## Pros\n- \n- \n\n## Cons\n- \n- \n\n## Next Steps\n- [ ] \n- [ ] \n" ]) := by
  have hno : ∀ (srv : Server), ∀ t ∈ templatesHandler srv now,
      ¬ strings.Contains t.Content "\x7b\x7bDATE\x7d\x7d" := by
    intro srv t ht
    simp only [templatesHandler, List.mem_map] at ht
    obtain ⟨u, _, rfl⟩ := ht
    exact ReplaceAll_dateToken_not_Contains u.Content now
  have hdefault : ∀ {σ ρ : Type} (env : ServerEnv σ ρ) (profile : Profile) (st st1 : σ)
      (srv : Server) (effects : List Effect),
      env.config.file profile.Data = .notExist →
      NewServer env profile st = (.ok srv, st1, effects) → srv.Config = GetDefaultConfig := by
    intro σ ρ env profile st st1 srv effects hfile h
    obtain ⟨_, _, hcfg⟩ := NewServer_ok_inv env profile st st1 srv effects h
    have hload : LoadConfig env.config profile.Data = .ok GetDefaultConfig := by
      simp [LoadConfig, hfile]
    rcases hcfg with ⟨cfg, hl, _, hc⟩ | hd
    · rw [hload] at hl
      rw [hc]
      exact (Except.ok.inj hl).symm
    · exact hd
  refine ⟨by simp [templatesHandler], by simp [templatesHandler, List.map_map, Function.comp_def],
    hno s, ?_, ?_, ?_⟩
  · intro σ ρ env profile st st1 srv effects hfile h
    have hdef := hdefault env profile st st1 srv effects hfile h
    refine ⟨?_, ?_, hno srv⟩
    · simp only [templatesHandler, List.length_map, hdef]
      decide
    · have hid : (templatesHandler srv now).map Template.ID =
          srv.Config.Templates.map Template.ID := by
        simp [templatesHandler, List.map_map, Function.comp_def]
      rw [hid, hdef]
      decide
  · unfold templatesHandler
    rw [List.forall₂_map_right_iff, List.forall₂_same]
    intro t _
    refine ⟨rfl, rfl, rfl, rfl, rfl, ?_, ?_⟩
    · intro hnot
      exact strings.ReplaceAll_of_not_Contains t.Content _ _ (by decide) hnot
    · intro pre post hsplit hfirst
      show strings.ReplaceAll t.Content "\x7b\x7bDATE\x7d\x7d" now.FormatLongDate = _
      rw [hsplit]
      refine strings.ReplaceAll_append pre post _ _ (dateToken_ne_FormatLongDate now)
        (by decide) ?_
      have hd : ("\x7b\x7bDATE\x7d\x7d" : String).data.dropLast =
          ("\x7b\x7bDATE\x7d" : String).data := by
        decide
      rw [hd, ← String.data_append]
      exact hfirst
  · intro σ ρ env profile st st1 srv effects hfile h
    exact templatesHandler_default_contents srv now
      (hdefault env profile st st1 srv effects hfile h)

/-- C8 at the development Server with the default Config, on Wednesday, November
4, 2026: six templates, none with a placeholder left, and the first content is the
stored one with that date in the place of the placeholder. -/
theorem C8_templates_rendering_witness :
    (templatesHandler devServer ⟨.Wednesday, .November, 4, 2026⟩).length = 6 ∧
      (∀ t ∈ templatesHandler devServer ⟨.Wednesday, .November, 4, 2026⟩,
        ¬ strings.Contains t.Content "\x7b\x7bDATE\x7d\x7d") ∧
      ((templatesHandler devServer ⟨.Wednesday, .November, 4, 2026⟩).map Template.Content).head? =
        some ("# Wednesday, November 4, 2026" ++
          "\n\n## Morning\n- \n\n## Afternoon\n- \n\n## Evening\n- \n\n## Notes\n") :=
  ⟨(C8_templates_rendering devServer ⟨.Wednesday, .November, 4, 2026⟩).1,
    (C8_templates_rendering devServer ⟨.Wednesday, .November, 4, 2026⟩).2.2.1,
    by
      rw [(C8_templates_rendering devServer ⟨.Wednesday, .November, 4, 2026⟩).2.2.2.2.2
        (ServerEnv.inMemory none none) devProfile ⟨"k3y", ()⟩ ⟨"k3y", ()⟩ devServer
        [.storeGet] rfl rfl]
      decide⟩

end Memos
